import Mathlib

/-!
Verification development for the CDA (Constrained Device Application) core of
the programmingtheiot repository: serialization codec (DataUtil), central
coordinator (DeviceDataManager), pub/sub connector (MqttClientConnector),
actuator dispatch (ActuatorAdapterManager) and the system performance
monitor (SystemPerformanceManager), shallowly embedded in Lean 4.

Wire text is modelled as `List Char`. Python dictionaries are modelled as
association lists. All recursion is structural or fuel-based so every
definition evaluates inside the kernel.
-/

/-! ## Characters and small text utilities -/

/-- The double-quote character. -/
def quoteC : Char := Char.ofNat 34

/-- The backslash character. -/
def bslashC : Char := Char.ofNat 92

/-- The single-quote (apostrophe) character. -/
def apoC : Char := Char.ofNat 39

/-- The opening curly brace character. -/
def obraceC : Char := Char.ofNat 123

/-- The closing curly brace character. -/
def cbraceC : Char := Char.ofNat 125

/-- The newline character. -/
def nlC : Char := Char.ofNat 10

/-- The space character. -/
def spC : Char := ' '

/-- The colon character. -/
def colonC : Char := ':'

/-- The comma character. -/
def commaC : Char := ','

/-- The decimal-point character. -/
def dotC : Char := '.'

/-- The minus-sign character. -/
def dashC : Char := '-'

/-- Decimal digit to its character. -/
def digitToChar (d : ℕ) : Char := Char.ofNat (48 + d)

/-- Character to decimal digit value. -/
def charToDigit (c : Char) : ℕ := c.toNat - 48

/-- Is this an ASCII decimal digit? -/
def isDigitC (c : Char) : Bool := 48 ≤ c.toNat && c.toNat ≤ 57

/-- Is this a JSON whitespace character (space, tab, newline, carriage return)? -/
def isWsC (c : Char) : Bool := c = spC || c.toNat = 9 || c.toNat = 10 || c.toNat = 13

/-- Strip a literal from the front of a text: `litStrip p s = some r` iff `s = p ++ r`. -/
def litStrip : List Char → List Char → Option (List Char)
  | [], s => some s
  | _ :: _, [] => none
  | p :: ps, c :: cs => if p = c then litStrip ps cs else none

/-- Does `pat` occur as a contiguous substring of `s`? (Python `in` / `str.replace` hit test.) -/
def containsSub (pat : List Char) : List Char → Bool
  | [] => pat.isEmpty
  | c :: cs => (litStrip pat (c :: cs)).isSome || containsSub pat cs

/-- Fuel-driven worker for `replaceSub`. -/
def replaceSubAux (pat rep : List Char) : ℕ → List Char → List Char
  | _, [] => []
  | 0, s => s
  | fuel + 1, c :: cs =>
    if pat ≠ [] ∧ (litStrip pat (c :: cs)).isSome
    then rep ++ replaceSubAux pat rep fuel ((c :: cs).drop pat.length)
    else c :: replaceSubAux pat rep fuel cs

/-- Python `str.replace pat rep`: replace every non-overlapping left-to-right
occurrence of `pat` by `rep`. (Never called with an empty `pat` by this code;
for an empty `pat` this model leaves the text unchanged.) -/
def replaceSub (pat rep s : List Char) : List Char := replaceSubAux pat rep s.length s

/-- The pattern `'` replaced by `"` in `DataUtil`. -/
def pQuote : List Char := [apoC]

/-- The pattern `False` replaced by `false` in `DataUtil`. -/
def pFalse : List Char := ['F', 'a', 'l', 's', 'e']

/-- The pattern `True` replaced by `true` in `DataUtil`. -/
def pTrue : List Char := ['T', 'r', 'u', 'e']

/-- The replacement chain applied by `DataUtil` both when generating JSON text
(`_generateJsonData`) and before parsing it (`_formatDataAndLoadDictionary`):
`.replace("'", "\"").replace('False', 'false').replace('True', 'true')`. -/
def applyPyJsonReplaces (s : List Char) : List Char :=
  replaceSub pTrue ['t', 'r', 'u', 'e']
    (replaceSub pFalse ['f', 'a', 'l', 's', 'e']
      (replaceSub pQuote [quoteC] s))

/-! ## Dynamic JSON values (the shapes produced by Python `json.loads`) -/

/-- A flat JSON value as Python's `json` module produces it: `str`, `int`,
`float` (modelled as an exact rational), `bool` or `None`. -/
inductive PyVal where
  | str (s : String)
  | int (i : ℤ)
  | num (q : ℚ)
  | bool (b : Bool)
  | null
deriving DecidableEq

/-! ## Configuration constants

Modelled from the spec: `programmingtheiot.common.ConfigConst` is not among the
provided sources; only the constant names used by the provided code are needed.
The numeric type identifiers are an opaque closed set of distinct integers and
the command codes distinct integers, per spec sections 3 and 4. -/

namespace ConfigConst

/-- Modelled from the spec: the temperature sensor type identifier (distinct integer). -/
def TEMP_SENSOR_TYPE : ℤ := 1013

/-- Modelled from the spec: the HVAC actuator type identifier (distinct integer). -/
def HVAC_ACTUATOR_TYPE : ℤ := 1001

/-- Modelled from the spec: the humidifier actuator type identifier (distinct integer). -/
def HUMIDIFIER_ACTUATOR_TYPE : ℤ := 1002

/-- Modelled from the spec: the LED display actuator type identifier (distinct integer). -/
def LED_DISPLAY_ACTUATOR_TYPE : ℤ := 2001

/-- Modelled from the spec: the ON command code. -/
def COMMAND_ON : ℤ := 1

/-- Modelled from the spec: the OFF command code. -/
def COMMAND_OFF : ℤ := 2

/-- Modelled from the spec: the default (unset) command code. -/
def DEFAULT_COMMAND : ℤ := 0

/-- Modelled from the spec: the fixed HVAC actuator name used by the control rule. -/
def HVAC_ACTUATOR_NAME : String := "HvacActuator"

/-- Modelled from the spec: the default placeholder string for unset names/locations. -/
def NOT_SET : String := "Not Set"

/-- Modelled from the spec: default quality-of-service level. -/
def DEFAULT_QOS : ℤ := 0

end ConfigConst

/-! ## Data records

Modelled from the spec: the record classes `SensorData`, `ActuatorData` and
`SystemPerformanceData` (package `programmingtheiot.data`) are not among the
provided sources. Spec section 3 fixes their fields:
`SensorReading {name, typeID, locationID, value (numeric), timestamp}`,
`ActuatorCommand {name, typeID, locationID, command, value, isResponse, statusCode}`,
`PerformanceReading {name, cpuUtilization, memoryUtilization, diskUtilization, timestamp}`.
Numeric telemetry values are modelled as exact rationals, identifiers as
integers. JSON encoding uses the object attribute dictionary (`__dict__` /
`vars(obj)`), so the attribute names below are also the wire keys (spec
section 6: "JSON object whose keys are exactly the in-memory record's field
names"). -/

structure SensorData where
  name : String
  typeID : ℤ
  locationID : String
  value : ℚ
  timestamp : String
deriving DecidableEq

structure ActuatorData where
  name : String
  typeID : ℤ
  locationID : String
  command : ℤ
  value : ℚ
  isResponse : Bool
  statusCode : ℤ
deriving DecidableEq

structure SystemPerformanceData where
  name : String
  cpuUtilization : ℚ
  memoryUtilization : ℚ
  diskUtilization : ℚ
  timestamp : String
deriving DecidableEq

/-- Modelled from the spec: a freshly constructed `SensorData()` with default field values. -/
def sensorDataDefault : SensorData :=
  { name := ConfigConst.NOT_SET, typeID := 0, locationID := ConfigConst.NOT_SET,
    value := 0, timestamp := "" }

/-- Modelled from the spec: a freshly constructed `ActuatorData()` with default field values. -/
def actuatorDataDefault : ActuatorData :=
  { name := ConfigConst.NOT_SET, typeID := 0, locationID := ConfigConst.NOT_SET,
    command := ConfigConst.DEFAULT_COMMAND, value := 0, isResponse := false, statusCode := 0 }

/-- Modelled from the spec: a freshly constructed `SystemPerformanceData()` with defaults. -/
def systemPerformanceDataDefault : SystemPerformanceData :=
  { name := ConfigConst.NOT_SET, cpuUtilization := 0, memoryUtilization := 0,
    diskUtilization := 0, timestamp := "" }

/-! ## Resource name enumeration

Modelled from the spec: `programmingtheiot.common.ResourceNameEnum` is not
among the provided sources. Spec sections 3 and 6 describe a closed enumeration
of named endpoints, each holding one topic string (`.value`), with a reverse
lookup (`getResourceNameByValue`) that returns the enum member whose value
equals the given topic string, or `None` for unknown addresses. -/

inductive ResourceNameEnum where
  | CDA_SENSOR_MSG_RESOURCE
  | CDA_ACTUATOR_CMD_RESOURCE
  | CDA_ACTUATOR_RESPONSE_MSG_RESOURCE
  | CDA_MGMT_STATUS_CMD_RESOURCE
  | CDA_SYSTEM_PERF_MSG_RESOURCE
deriving DecidableEq

/-- Modelled from the spec: the topic string (`.value`) of each enum member. -/
def resourceValue : ResourceNameEnum → String
  | .CDA_SENSOR_MSG_RESOURCE => "PIOT/ConstrainedDevice/SensorMsg"
  | .CDA_ACTUATOR_CMD_RESOURCE => "PIOT/ConstrainedDevice/ActuatorCmd"
  | .CDA_ACTUATOR_RESPONSE_MSG_RESOURCE => "PIOT/ConstrainedDevice/ActuatorResponse"
  | .CDA_MGMT_STATUS_CMD_RESOURCE => "PIOT/ConstrainedDevice/MgmtStatusCmd"
  | .CDA_SYSTEM_PERF_MSG_RESOURCE => "PIOT/ConstrainedDevice/SystemPerfMsg"

/-- The closed list of all enumeration members. -/
def allResourceNames : List ResourceNameEnum :=
  [.CDA_SENSOR_MSG_RESOURCE, .CDA_ACTUATOR_CMD_RESOURCE,
   .CDA_ACTUATOR_RESPONSE_MSG_RESOURCE, .CDA_MGMT_STATUS_CMD_RESOURCE,
   .CDA_SYSTEM_PERF_MSG_RESOURCE]

/-- Modelled from the spec: `ResourceNameEnum.getResourceNameByValue(topic)` —
the enum member whose `.value` equals `topic`, else `None`. -/
def getResourceNameByValue (topic : String) : Option ResourceNameEnum :=
  allResourceNames.find? (fun r => resourceValue r = topic)

/-! ## JSON text generation (Python `json.dumps(obj, cls=JsonDataEncoder, indent=4)`)

The standard-library `json` module is external to the repository; it is
embedded concretely here for the flat string/int/float/bool objects this code
serializes: `indent=4` layout, strings escaped, floats rendered as exact
decimals, booleans lowercase. -/

/-- Little-endian base-10 digits of `n` (`fuel ≥ n` suffices). -/
def natDigitsAux : ℕ → ℕ → List ℕ
  | 0, _ => []
  | _ + 1, 0 => []
  | fuel + 1, n => n % 10 :: natDigitsAux fuel (n / 10)

/-- Big-endian base-10 digit list of `n` (with `[0]` for zero). -/
def natDigitsBE (n : ℕ) : List ℕ :=
  if n = 0 then [0] else (natDigitsAux n n).reverse

/-- Decimal rendering of a natural number. -/
def natToChars (n : ℕ) : List Char := (natDigitsBE n).map digitToChar

/-- Rendering of a Python `int` as JSON text. -/
def renderInt (i : ℤ) : List Char :=
  (if i < 0 then [dashC] else []) ++ natToChars i.natAbs

/-- Exactly `k` fractional digits of the value `fr < 10 ^ k`, zero-padded on
the left. -/
def fracRender (k fr : ℕ) : List Char :=
  List.replicate (k - (natDigitsBE fr).length) (digitToChar 0) ++ (natDigitsBE fr).map digitToChar

/-- Rendering of a Python `float` holding the exact rational `q` as a JSON
decimal literal with an explicit fractional part (as `repr` of a float does).
Exact whenever the denominator of `q` divides a power of ten. -/
def renderRat (q : ℚ) : List Char :=
  let k := q.den
  let m := q.num.natAbs * (10 ^ k / q.den)
  (if q.num < 0 then [dashC] else []) ++ natToChars (m / 10 ^ k) ++
    dotC :: fracRender k (m % 10 ^ k)

/-- Render the hexadecimal digit `d`. -/
def hexDigitChar (d : ℕ) : Char :=
  if d < 10 then digitToChar d else Char.ofNat (97 + (d - 10))

/-- JSON string escaping of one character, as `json.dumps` performs it with the
default `ensure_ascii=True` (short escapes for quote, backslash and common
control characters, `\uXXXX` otherwise for control and non-ASCII characters). -/
def escapeChar (c : Char) : List Char :=
  if c = quoteC then [bslashC, quoteC]
  else if c = bslashC then [bslashC, bslashC]
  else if c.toNat = 10 then [bslashC, 'n']
  else if c.toNat = 9 then [bslashC, 't']
  else if c.toNat = 13 then [bslashC, 'r']
  else if c.toNat < 32 ∨ 127 ≤ c.toNat then
    bslashC :: 'u' :: [hexDigitChar (c.toNat / 4096 % 16), hexDigitChar (c.toNat / 256 % 16),
      hexDigitChar (c.toNat / 16 % 16), hexDigitChar (c.toNat % 16)]
  else [c]

/-- JSON string escaping of a character list. -/
def escapeStr : List Char → List Char
  | [] => []
  | c :: cs => escapeChar c ++ escapeStr cs

/-- The literal `true`. -/
def trueLit : List Char := ['t', 'r', 'u', 'e']

/-- The literal `false`. -/
def falseLit : List Char := ['f', 'a', 'l', 's', 'e']

/-- The literal `null`. -/
def nullLit : List Char := ['n', 'u', 'l', 'l']

/-- Rendering of one JSON value. -/
def renderVal : PyVal → List Char
  | .str s => quoteC :: escapeStr s.data ++ [quoteC]
  | .int i => renderInt i
  | .num q => renderRat q
  | .bool true => trueLit
  | .bool false => falseLit
  | .null => nullLit

/-- The four-space indentation emitted by `json.dumps(..., indent=4)`. -/
def indent4 : List Char := [spC, spC, spC, spC]

/-- Rendering of one `"key": value` member. -/
def renderEntry (e : String × PyVal) : List Char :=
  quoteC :: e.1.data ++ quoteC :: colonC :: spC :: renderVal e.2

/-- Rendering of the member list of an object, `indent=4` style: members on
their own indented lines, separated by commas. -/
def renderEntries : List (String × PyVal) → List Char
  | [] => []
  | [e] => indent4 ++ renderEntry e
  | e :: es => indent4 ++ renderEntry e ++ commaC :: nlC :: renderEntries es

/-- `json.dumps(d, indent=4)` for a flat object `d`. -/
def dumpsDict (d : List (String × PyVal)) : List Char :=
  match d with
  | [] => [obraceC, cbraceC]
  | _ :: _ => obraceC :: nlC :: renderEntries d ++ nlC :: cbraceC :: []

/-! ## JSON text parsing (Python `json.loads`)

Embedded concretely for flat objects of string/int/float/bool/null members,
which is the shape this code ever produces and consumes; nested containers,
exponent number notation and `\uXXXX` escapes make this model parser fail,
which the code paths under verification never exercise. -/

/-- Drop leading JSON whitespace. -/
def skipWs : List Char → List Char
  | [] => []
  | c :: cs => if isWsC c then skipWs cs else c :: cs

/-- Parse the remainder of a JSON string literal after its opening quote;
returns the unescaped content and the rest of the input after the closing
quote. -/
def parseStringBody : List Char → Option (List Char × List Char)
  | [] => none
  | c :: cs =>
    if c = quoteC then some ([], cs)
    else if c = bslashC then
      match cs with
      | [] => none
      | e :: cs2 =>
        let u : Option Char :=
          if e = quoteC then some quoteC
          else if e = bslashC then some bslashC
          else if e = '/' then some '/'
          else if e = 'n' then some nlC
          else if e = 't' then some (Char.ofNat 9)
          else if e = 'r' then some (Char.ofNat 13)
          else none
        match u with
        | none => none
        | some uc => (parseStringBody cs2).map (fun p => (uc :: p.1, p.2))
    else (parseStringBody cs).map (fun p => (c :: p.1, p.2))

/-- Consume a run of decimal digits, returning the accumulated value, the
number of digits consumed and the rest. -/
def parseDigitsAux (acc : ℕ) : List Char → ℕ × ℕ × List Char
  | [] => (acc, 0, [])
  | c :: cs =>
    if isDigitC c then
      let p := parseDigitsAux (acc * 10 + charToDigit c) cs
      (p.1, p.2.1 + 1, p.2.2)
    else (acc, 0, c :: cs)

/-- Parse the digits of a JSON number after an optional minus sign `neg`:
an `int` when it has no fractional part, a `float` otherwise, as `json.loads`
distinguishes them. -/
def parseNumCore (neg : Bool) (s1 : List Char) : Option (PyVal × List Char) :=
  match s1 with
  | [] => none
  | c :: _ =>
    if isDigitC c = false then none
    else
      match parseDigitsAux 0 s1 with
      | (ip, _, d :: r2) =>
        if d = dotC then
          match r2 with
          | e :: _ =>
            if isDigitC e then
              match parseDigitsAux 0 r2 with
              | (fv, fc, r3) =>
                some (.num ((if neg then -1 else 1) * ((ip : ℚ) + (fv : ℚ) / 10 ^ fc)), r3)
            else none
          | [] => none
        else some (.int (if neg then -(ip : ℤ) else (ip : ℤ)), d :: r2)
      | (ip, _, []) => some (.int (if neg then -(ip : ℤ) else (ip : ℤ)), [])

/-- Parse a JSON number. -/
def parseNum (s : List Char) : Option (PyVal × List Char) :=
  match s with
  | [] => none
  | c :: cs => if c = dashC then parseNumCore true cs else parseNumCore false (c :: cs)

/-- Parse one JSON scalar value (after optional leading whitespace). -/
def parseValue (s : List Char) : Option (PyVal × List Char) :=
  match skipWs s with
  | [] => none
  | c :: cs =>
    if c = quoteC then (parseStringBody cs).map (fun p => (.str (String.mk p.1), p.2))
    else if c = dashC ∨ isDigitC c then parseNum (c :: cs)
    else
      match litStrip trueLit (c :: cs) with
      | some r => some (.bool true, r)
      | none =>
        match litStrip falseLit (c :: cs) with
        | some r => some (.bool false, r)
        | none =>
          match litStrip nullLit (c :: cs) with
          | some r => some (.null, r)
          | none => none

/-- Parse the members of a JSON object, positioned before a `"key"`; the fuel
bounds the number of members. -/
def parseMembersAux : ℕ → List Char → Option (List (String × PyVal) × List Char)
  | 0, _ => none
  | fuel + 1, s =>
    match skipWs s with
    | [] => none
    | c :: cs =>
      if c = quoteC then
        match parseStringBody cs with
        | none => none
        | some (k, r1) =>
          match skipWs r1 with
          | [] => none
          | d :: r2 =>
            if d = colonC then
              match parseValue r2 with
              | none => none
              | some (v, r3) =>
                match skipWs r3 with
                | [] => none
                | e :: r4 =>
                  if e = commaC then
                    (parseMembersAux fuel r4).map (fun p => ((String.mk k, v) :: p.1, p.2))
                  else if e = cbraceC then some ([(String.mk k, v)], r4)
                  else none
            else none
      else none

/-- `json.loads` for a flat object: parse a top-level JSON object and require
the input to be fully consumed; `none` models a raised `JSONDecodeError`. -/
def loads (s : List Char) : Option (List (String × PyVal)) :=
  match skipWs s with
  | [] => none
  | c :: cs =>
    if c = obraceC then
      match skipWs cs with
      | [] => none
      | d :: ds =>
        if d = cbraceC then (if skipWs ds = [] then some [] else none)
        else
          match parseMembersAux (s.length + 1) cs with
          | none => none
          | some (mems, rest) => if skipWs rest = [] then some mems else none
    else none

/-! ## The serialization codec (`programmingtheiot/data/DataUtil.py`)

`_generateJsonData` is `json.dumps(obj, cls=JsonDataEncoder, indent=4)` (the
encoder serializes the object's `__dict__`) followed by the replacement chain;
`_formatDataAndLoadDictionary` is the replacement chain followed by
`json.loads`; `_updateIotData` copies each parsed key that names an object
attribute onto a freshly constructed record, ignoring unknown keys. Since the
records here are typed (modelled from the spec), a copied value must also have
the attribute's shape; the JSON this codec itself produces always does. -/

/-- A Python exception escaping a `DataUtil` call. -/
inductive PyErr where
  | jsonDecodeError
  | runtimeError
deriving DecidableEq

/-- The `__dict__` of a `SensorData` object, in attribute order. -/
def sensorToDict (r : SensorData) : List (String × PyVal) :=
  [("name", .str r.name), ("typeID", .int r.typeID), ("locationID", .str r.locationID),
   ("value", .num r.value), ("timestamp", .str r.timestamp)]

/-- The `__dict__` of an `ActuatorData` object, in attribute order. -/
def actuatorToDict (r : ActuatorData) : List (String × PyVal) :=
  [("name", .str r.name), ("typeID", .int r.typeID), ("locationID", .str r.locationID),
   ("command", .int r.command), ("value", .num r.value), ("isResponse", .bool r.isResponse),
   ("statusCode", .int r.statusCode)]

/-- The `__dict__` of a `SystemPerformanceData` object, in attribute order. -/
def sysPerfToDict (r : SystemPerformanceData) : List (String × PyVal) :=
  [("name", .str r.name), ("cpuUtilization", .num r.cpuUtilization),
   ("memoryUtilization", .num r.memoryUtilization), ("diskUtilization", .num r.diskUtilization),
   ("timestamp", .str r.timestamp)]

/-- `setattr` step of `_updateIotData` for `SensorData`: keys not naming an
attribute are ignored, as are values not of the attribute's shape. -/
def setSensorField (r : SensorData) (e : String × PyVal) : SensorData :=
  if e.1 = "name" then (match e.2 with | .str s => { r with name := s } | _ => r)
  else if e.1 = "typeID" then (match e.2 with | .int i => { r with typeID := i } | _ => r)
  else if e.1 = "locationID" then (match e.2 with | .str s => { r with locationID := s } | _ => r)
  else if e.1 = "value" then (match e.2 with | .num q => { r with value := q } | _ => r)
  else if e.1 = "timestamp" then (match e.2 with | .str s => { r with timestamp := s } | _ => r)
  else r

/-- `setattr` step of `_updateIotData` for `ActuatorData`. -/
def setActuatorField (r : ActuatorData) (e : String × PyVal) : ActuatorData :=
  if e.1 = "name" then (match e.2 with | .str s => { r with name := s } | _ => r)
  else if e.1 = "typeID" then (match e.2 with | .int i => { r with typeID := i } | _ => r)
  else if e.1 = "locationID" then (match e.2 with | .str s => { r with locationID := s } | _ => r)
  else if e.1 = "command" then (match e.2 with | .int i => { r with command := i } | _ => r)
  else if e.1 = "value" then (match e.2 with | .num q => { r with value := q } | _ => r)
  else if e.1 = "isResponse" then (match e.2 with | .bool b => { r with isResponse := b } | _ => r)
  else if e.1 = "statusCode" then (match e.2 with | .int i => { r with statusCode := i } | _ => r)
  else r

/-- `setattr` step of `_updateIotData` for `SystemPerformanceData`. -/
def setSysPerfField (r : SystemPerformanceData) (e : String × PyVal) : SystemPerformanceData :=
  if e.1 = "name" then (match e.2 with | .str s => { r with name := s } | _ => r)
  else if e.1 = "cpuUtilization" then (match e.2 with | .num q => { r with cpuUtilization := q } | _ => r)
  else if e.1 = "memoryUtilization" then (match e.2 with | .num q => { r with memoryUtilization := q } | _ => r)
  else if e.1 = "diskUtilization" then (match e.2 with | .num q => { r with diskUtilization := q } | _ => r)
  else if e.1 = "timestamp" then (match e.2 with | .str s => { r with timestamp := s } | _ => r)
  else r

/-- `DataUtil.sensorDataToJson`: empty text for `None`, else
`_generateJsonData` (dump of `__dict__`, then the replacement chain). -/
def sensorDataToJson (data : Option SensorData) : List Char :=
  match data with
  | none => []
  | some r => applyPyJsonReplaces (dumpsDict (sensorToDict r))

/-- `DataUtil.actuatorDataToJson`. -/
def actuatorDataToJson (data : Option ActuatorData) : List Char :=
  match data with
  | none => []
  | some r => applyPyJsonReplaces (dumpsDict (actuatorToDict r))

/-- `DataUtil.systemPerformanceDataToJson`. -/
def systemPerformanceDataToJson (data : Option SystemPerformanceData) : List Char :=
  match data with
  | none => []
  | some r => applyPyJsonReplaces (dumpsDict (sysPerfToDict r))

/-- `DataUtil.jsonToSensorData`: `None`/empty input yields `None`; otherwise
`_formatDataAndLoadDictionary` parses the massaged text — a parse failure is a
raised exception (`.error`), since `DataUtil` installs no handler — and
`_updateIotData` fills a fresh record. -/
def jsonToSensorData (jsonData : Option (List Char)) : Except PyErr (Option SensorData) :=
  match jsonData with
  | none => .ok none
  | some s =>
    if s = [] then .ok none
    else
      match loads (applyPyJsonReplaces s) with
      | none => .error .jsonDecodeError
      | some dict => .ok (some (dict.foldl setSensorField sensorDataDefault))

/-- `DataUtil.jsonToActuatorData`. -/
def jsonToActuatorData (jsonData : Option (List Char)) : Except PyErr (Option ActuatorData) :=
  match jsonData with
  | none => .ok none
  | some s =>
    if s = [] then .ok none
    else
      match loads (applyPyJsonReplaces s) with
      | none => .error .jsonDecodeError
      | some dict => .ok (some (dict.foldl setActuatorField actuatorDataDefault))

/-- `DataUtil.jsonToSystemPerformanceData`. -/
def jsonToSystemPerformanceData (jsonData : Option (List Char)) :
    Except PyErr (Option SystemPerformanceData) :=
  match jsonData with
  | none => .ok none
  | some s =>
    if s = [] then .ok none
    else
      match loads (applyPyJsonReplaces s) with
      | none => .error .jsonDecodeError
      | some dict => .ok (some (dict.foldl setSysPerfField systemPerformanceDataDefault))

/-! ## Python dictionaries used as latest-value caches -/

/-- Python `d[k] = v`: overwrite the existing entry in place, else append. -/
def dictInsert {α : Type} (k : String) (v : α) : List (String × α) → List (String × α)
  | [] => [(k, v)]
  | e :: t => if e.1 = k then (e.1, v) :: t else e :: dictInsert k v t

/-- Python `d[k]` guarded by `k in d`: the value at the first matching key. -/
def dictLookup {α : Type} (k : String) : List (String × α) → Option α
  | [] => none
  | e :: t => if e.1 = k then some e.2 else dictLookup k t

/-! ## The central coordinator (`programmingtheiot/cda/app/DeviceDataManager.py`)

The manager's mutable state is its three latest-value caches; the
configuration flags and thresholds are read once at construction. The
observable effects of a handler call are modelled explicitly: the list of
`_handleUpstreamTransmission` invocations (each holding the resource and the
serialized message; inside, the message is published over MQTT when an MQTT
client is configured — the CoAP client is always `None` in this code) and the
list of `ActuatorData` commands passed to `handleActuatorCommandMessage` by
the control-rule analysis. -/

structure DDMConfig where
  handleTempChangeOnDevice : Bool
  triggerHvacTempFloor : ℚ
  triggerHvacTempCeiling : ℚ
  mqttConfigured : Bool
deriving DecidableEq

structure DDMState where
  cfg : DDMConfig
  latestSensorDataCache : List (String × SensorData)
  latestActuatorDataCache : List (String × ActuatorData)
  latestSystemPerfDataCache : List (String × SystemPerformanceData)
deriving DecidableEq

structure DDMEffects where
  upstream : List (ResourceNameEnum × List Char)
  actuatorCmds : List ActuatorData
deriving DecidableEq

/-- The `ActuatorData` built by `_handleSensorDataAnalysis`: constructed with
the HVAC type, given the reading's location and the fixed HVAC name, then the
command and value chosen by the threshold comparison. -/
def hvacAnalysisCommand (cfg : DDMConfig) (d : SensorData) : ActuatorData :=
  let ad := { actuatorDataDefault with
    typeID := ConfigConst.HVAC_ACTUATOR_TYPE,
    locationID := d.locationID,
    name := ConfigConst.HVAC_ACTUATOR_NAME }
  if d.value > cfg.triggerHvacTempCeiling then
    { ad with command := ConfigConst.COMMAND_ON, value := cfg.triggerHvacTempCeiling }
  else if d.value < cfg.triggerHvacTempFloor then
    { ad with command := ConfigConst.COMMAND_ON, value := cfg.triggerHvacTempFloor }
  else
    { ad with command := ConfigConst.COMMAND_OFF, value := 0 }

/-- `_handleSensorDataAnalysis`: when local temperature handling is enabled and
the reading is a temperature reading, issue the HVAC command (it is passed to
`handleActuatorCommandMessage`); otherwise do nothing. Returns the issued
command. -/
def handleSensorDataAnalysis (cfg : DDMConfig) (d : SensorData) : Option ActuatorData :=
  if cfg.handleTempChangeOnDevice = true ∧ d.typeID = ConfigConst.TEMP_SENSOR_TYPE then
    some (hvacAnalysisCommand cfg d)
  else none

/-- `DeviceDataManager.getLatestSensorDataFromCache`: `None` for a falsy name
or a missing entry. -/
def getLatestSensorDataFromCache (st : DDMState) (name : String) : Option SensorData :=
  if name ≠ "" then dictLookup name st.latestSensorDataCache else none

/-- `DeviceDataManager.getLatestActuatorDataResponseFromCache`. -/
def getLatestActuatorDataResponseFromCache (st : DDMState) (name : String) : Option ActuatorData :=
  if name ≠ "" then dictLookup name st.latestActuatorDataCache else none

/-- `DeviceDataManager.getLatestSystemPerformanceDataFromCache`. -/
def getLatestSystemPerformanceDataFromCache (st : DDMState) (name : String) :
    Option SystemPerformanceData :=
  if name ≠ "" then dictLookup name st.latestSystemPerfDataCache else none

/-- `DeviceDataManager.handleSensorMessage`: `None` is rejected with `False`;
otherwise cache under the name when the name is truthy, run
`_handleSensorDataAnalysis`, invoke `_handleUpstreamTransmission` with the
serialized reading, and return `True`. -/
def handleSensorMessage (st : DDMState) (data : Option SensorData) :
    Bool × DDMState × DDMEffects :=
  match data with
  | none => (false, st, ⟨[], []⟩)
  | some d =>
    let cache := if d.name ≠ "" then dictInsert d.name d st.latestSensorDataCache
      else st.latestSensorDataCache
    let cmds := match handleSensorDataAnalysis st.cfg d with
      | some ad => [ad]
      | none => []
    (true, { st with latestSensorDataCache := cache },
      ⟨[(.CDA_SENSOR_MSG_RESOURCE, sensorDataToJson (some d))], cmds⟩)

/-- `DeviceDataManager.handleActuatorCommandResponse`: `None` is rejected with
`False`; otherwise cache under the name when the name is truthy, invoke
`_handleUpstreamTransmission` with the serialized response, return `True`. -/
def handleActuatorCommandResponse (st : DDMState) (data : Option ActuatorData) :
    Bool × DDMState × DDMEffects :=
  match data with
  | none => (false, st, ⟨[], []⟩)
  | some d =>
    let cache := if d.name ≠ "" then dictInsert d.name d st.latestActuatorDataCache
      else st.latestActuatorDataCache
    (true, { st with latestActuatorDataCache := cache },
      ⟨[(.CDA_ACTUATOR_RESPONSE_MSG_RESOURCE, actuatorDataToJson (some d))], []⟩)

/-- `DeviceDataManager.handleSystemPerformanceMessage`: same contract as the
sensor handler, without control-rule analysis. -/
def handleSystemPerformanceMessage (st : DDMState) (data : Option SystemPerformanceData) :
    Bool × DDMState × DDMEffects :=
  match data with
  | none => (false, st, ⟨[], []⟩)
  | some d =>
    let cache := if d.name ≠ "" then dictInsert d.name d st.latestSystemPerfDataCache
      else st.latestSystemPerfDataCache
    (true, { st with latestSystemPerfDataCache := cache },
      ⟨[(.CDA_SYSTEM_PERF_MSG_RESOURCE, systemPerformanceDataToJson (some d))], []⟩)

/-! ## The pub/sub connector (`programmingtheiot/cda/connection/MqttClientConnector.py`) -/

/-- Modelled from the spec: the underlying MQTT client library's
`publish` + `wait_for_publish` pair signals failure by raising when the
connector holds no active broker connection (spec section 4.5: publish
"fails ... if not connected"). -/
def mcPublishWaitForPublish (connected : Bool) (_topic : String) (_payload : String) :
    Except PyErr Unit :=
  if connected then .ok () else .error .runtimeError

/-- `MqttClientConnector.publishMessage`: `False` for a missing resource or a
falsy message; otherwise the publish attempt runs inside `try/except`, so a
raising transport yields `False` and a successful one `True`. The `Except`
result type records that the method itself never lets an exception escape. -/
def publishMessage (connected : Bool) (resource : Option ResourceNameEnum)
    (msg : Option String) : Except PyErr Bool :=
  match resource with
  | none => .ok false
  | some r =>
    if msg = none ∨ msg = some "" then .ok false
    else
      match mcPublishWaitForPublish connected (resourceValue r) (msg.getD "") with
      | .ok _ => .ok true
      | .error _ => .ok false

/-- `MqttClientConnector.onMessage`: deliver the payload to the registered
listener's `handleIncomingMessage` only when a listener is set and the topic
resolves through `getResourceNameByValue`; the returned list holds the
listener invocations that take place. -/
def onMessage (listenerSet : Bool) (topic : String) (payload : String) :
    List (ResourceNameEnum × String) :=
  if listenerSet then
    match getResourceNameByValue topic with
    | some r => [(r, payload)]
    | none => []
  else []

/-! ## The actuator dispatch manager (`programmingtheiot/cda/system/ActuatorAdapterManager.py`) -/

inductive ActuatorKind where
  | humidifier
  | hvac
  | ledDisplay
deriving DecidableEq

/-- The dispatch manager's state: the device location read from configuration
and which actuator backends were installed at construction. -/
structure ActuatorAdapterManager where
  locationID : String
  humidifierActuator : Bool
  hvacActuator : Bool
  ledDisplayActuator : Bool
deriving DecidableEq

/-- `ActuatorAdapterManager.sendActuatorCommand`, parameterized by the
backends' `updateActuator` behaviors. Returns the response (or `None` on any
rejection) together with the list of backend invocations performed. -/
def sendActuatorCommand (mgr : ActuatorAdapterManager)
    (updHumidifier updHvac updLed : ActuatorData → Option ActuatorData)
    (data : Option ActuatorData) : Option ActuatorData × List (ActuatorKind × ActuatorData) :=
  match data with
  | none => (none, [])
  | some d =>
    if d.isResponse = true then (none, [])
    else if d.locationID = mgr.locationID then
      if d.typeID = ConfigConst.HUMIDIFIER_ACTUATOR_TYPE ∧ mgr.humidifierActuator = true then
        (updHumidifier d, [(.humidifier, d)])
      else if d.typeID = ConfigConst.HVAC_ACTUATOR_TYPE ∧ mgr.hvacActuator = true then
        (updHvac d, [(.hvac, d)])
      else if d.typeID = ConfigConst.LED_DISPLAY_ACTUATOR_TYPE ∧ mgr.ledDisplayActuator = true then
        (updLed d, [(.ledDisplay, d)])
      else (none, [])
    else (none, [])

/-! ## The system performance monitor (`programmingtheiot/cda/system/SystemPerformanceManager.py`) -/

inductive SysUtilTaskKind where
  | cpu
  | mem
  | disk
deriving DecidableEq

structure SPMTelemetryEffects where
  polled : List SysUtilTaskKind
  listenerMessages : List SystemPerformanceData
deriving DecidableEq

structure SystemPerformanceManagerState where
  pollRate : ℤ
  isStarted : Bool
deriving DecidableEq

/-- `SystemPerformanceManager.handleTelemetry`, given the values the CPU and
memory utilization tasks would report: the method reads
`cpuUtilTask.getTelemetryValue()` and `memUtilTask.getTelemetryValue()` and
logs them. It builds no `SystemPerformanceData`, polls no disk utilization
task (none exists in this manager) and invokes no listener. -/
def spmHandleTelemetry (_cpuUtil _memUtil : ℚ) : SPMTelemetryEffects :=
  { polled := [.cpu, .mem], listenerMessages := [] }

/-- `SystemPerformanceManager.setDataMessageListener`: the body is `pass` —
the listener argument is discarded, no state changes, and the method returns
`None` despite its `-> bool` annotation (modelled as `none`). -/
def spmSetDataMessageListener (st : SystemPerformanceManagerState) (_listener : Option Unit) :
    SystemPerformanceManagerState × Option Bool :=
  (st, none)

/-! ## Side conditions for the round-trip property -/

/-- Value of a little-endian digit list. -/
def valLE : List ℕ → ℕ
  | [] => 0
  | d :: ds => d + 10 * valLE ds

/-- The head of the remaining input, if any, is not a digit. -/
def headNotDigit (l : List Char) : Prop := ∀ c, l.head? = some c → isDigitC c = false

/-- The head of the remaining input, if any, is neither a digit nor a decimal point. -/
def headNotNumCont (l : List Char) : Prop :=
  ∀ c, l.head? = some c → isDigitC c = false ∧ c ≠ dotC

/-- A character of a number token. -/
def isNumC (c : Char) : Bool := isDigitC c || c = dotC || c = dashC

/-- A string character that survives the codec byte-for-byte: printable ASCII,
not a double quote, backslash or single quote. -/
def safeChar (c : Char) : Bool :=
  32 ≤ c.toNat && c.toNat < 127 && !(c = quoteC) && !(c = bslashC) && !(c = apoC)

/-- A string the codec transports faithfully: safe characters only and no
occurrence of the replaced substrings `True` and `False`. -/
def strOkB (s : String) : Bool :=
  s.data.all safeChar && !containsSub pTrue s.data && !containsSub pFalse s.data

/-- A rational exactly representable as a finite decimal (its reduced
denominator divides a power of ten; `den ∣ 10 ^ den` is such a power). -/
def decOk (q : ℚ) : Prop := q.den ∣ 10 ^ q.den

/-- A `SensorData` record the codec can transport faithfully. -/
def sensorDataOk (r : SensorData) : Prop :=
  strOkB r.name = true ∧ strOkB r.locationID = true ∧ strOkB r.timestamp = true ∧ decOk r.value

/-- An `ActuatorData` record the codec can transport faithfully. -/
def actuatorDataOk (r : ActuatorData) : Prop :=
  strOkB r.name = true ∧ strOkB r.locationID = true ∧ decOk r.value

/-- A `SystemPerformanceData` record the codec can transport faithfully. -/
def sysPerfDataOk (r : SystemPerformanceData) : Prop :=
  strOkB r.name = true ∧ strOkB r.timestamp = true ∧
    decOk r.cpuUtilization ∧ decOk r.memoryUtilization ∧ decOk r.diskUtilization

/-- Well-formedness of one JSON value for the parser round trip. -/
def valOK : PyVal → Prop
  | .str s => ∀ c ∈ s.data, safeChar c = true
  | .num q => decOk q
  | _ => True

/-- Well-formedness of one object member for the parser round trip. -/
def entryOK (e : String × PyVal) : Prop :=
  (∀ c ∈ e.1.data, safeChar c = true) ∧ valOK e.2

/-- The characters of `pat` avoid every structural separator of rendered JSON. -/
def sepOK (pat : List Char) : Prop :=
  quoteC ∉ pat ∧ colonC ∉ pat ∧ spC ∉ pat ∧ commaC ∉ pat ∧ nlC ∉ pat ∧
    obraceC ∉ pat ∧ cbraceC ∉ pat

/-- `pat` cannot occur inside the rendering of this value. -/
def valNoPat (pat : List Char) : PyVal → Prop
  | .str s => ¬ pat <:+: s.data
  | .int _ => ∀ c ∈ pat, isNumC c = false
  | .num _ => ∀ c ∈ pat, isNumC c = false
  | .bool b => ¬ pat <:+: (if b then trueLit else falseLit)
  | .null => ¬ pat <:+: nullLit

deriving instance DecidableEq for Except

/-! # Theorems

## Substring occurrence and replacement -/

theorem infixOfNil {pat : List Char} (h : pat <:+: ([] : List Char)) : pat = [] := by
  obtain ⟨s, t, h⟩ := h
  rcases List.append_eq_nil.mp h with ⟨h1, -⟩
  exact ( List.append_eq_nil.mp h1).2

theorem infixCons {pat l : List Char} {a : Char} (h : pat <:+: l) : pat <:+: a :: l := by
  obtain ⟨s, t, rfl⟩ := h
  exact ⟨a :: s, t, rfl⟩

theorem nilInfix (l : List Char) : [] <:+: l := ⟨[], l, rfl⟩

theorem infixConsCases {pat l : List Char} {a : Char} (h : pat <:+: a :: l) :
    pat = [] ∨ (∃ ps t, pat = a :: ps ∧ ps ++ t = l) ∨ pat <:+: l := by
  obtain ⟨s, t, h⟩ := h
  cases s with
  | nil =>
    cases pat with
    | nil => exact Or.inl rfl
    | cons p ps =>
      rw [List.nil_append, List.cons_append, List.cons.injEq] at h
      exact Or.inr (Or.inl ⟨ps, t, by rw [h.1], h.2⟩)
  | cons b s2 =>
    rw [List.cons_append, List.cons_append, List.cons.injEq] at h
    exact Or.inr (Or.inr ⟨s2, t, h.2⟩)

theorem prefixFits {c : Char} :
    ∀ (l₁ : List Char) {ps tt l₂ : List Char}, ps ++ tt = l₁ ++ c :: l₂ → c ∉ ps →
      ∃ r, ps ++ r = l₁ := by
  intro l₁
  induction l₁ with
  | nil =>
    intro ps tt l₂ h hc
    cases ps with
    | nil => exact ⟨[], rfl⟩
    | cons p ps2 =>
      rw [List.cons_append, List.nil_append, List.cons.injEq] at h
      exact absurd (h.1 ▸ List.mem_cons_self p ps2) hc
  | cons b t₁ ih =>
    intro ps tt l₂ h hc
    cases ps with
    | nil => exact ⟨b :: t₁, rfl⟩
    | cons p ps2 =>
      rw [List.cons_append, List.cons_append, List.cons.injEq] at h
      obtain ⟨r, hr⟩ := ih h.2 (fun hm => hc (List.mem_cons_of_mem p hm))
      exact ⟨r, by rw [List.cons_append, hr, h.1]⟩

theorem infixSplit {c : Char} {pat : List Char} (hc : c ∉ pat) :
    ∀ (l₁ : List Char) {l₂ : List Char}, pat <:+: (l₁ ++ c :: l₂) →
      pat <:+: l₁ ∨ pat <:+: l₂ := by
  intro l₁
  induction l₁ with
  | nil =>
    intro l₂ h
    rw [List.nil_append] at h
    rcases infixConsCases h with h0 | ⟨ps, t, hp, -⟩ | h2
    · exact Or.inl (h0 ▸ nilInfix [])
    · exact absurd (hp ▸ List.mem_cons_self c ps) hc
    · exact Or.inr h2
  | cons a t₁ ih =>
    intro l₂ h
    rw [List.cons_append] at h
    rcases infixConsCases h with h0 | ⟨ps, tt, hp, hs⟩ | h2
    · exact Or.inl (h0 ▸ nilInfix (a :: t₁))
    · have hcps : c ∉ ps := fun hm => hc (hp ▸ List.mem_cons_of_mem a hm)
      obtain ⟨r, hr⟩ := prefixFits t₁ hs hcps
      exact Or.inl ⟨[], r, by rw [List.nil_append, hp, List.cons_append, hr]⟩
    · rcases ih h2 with h3 | h3
      · exact Or.inl (infixCons h3)
      · exact Or.inr h3

theorem notInfixNil {pat : List Char} (hne : pat ≠ []) : ¬ pat <:+: ([] : List Char) :=
  fun h => hne (infixOfNil h)

theorem notInfixAppendSep {pat l₁ l₂ : List Char} {c : Char} (hc : c ∉ pat)
    (h1 : ¬ pat <:+: l₁) (h2 : ¬ pat <:+: l₂) : ¬ pat <:+: (l₁ ++ c :: l₂) :=
  fun h => (infixSplit hc l₁ h).elim h1 h2

theorem notInfixConsSep {pat l : List Char} {c : Char} (hc : c ∉ pat) (hne : pat ≠ [])
    (h : ¬ pat <:+: l) : ¬ pat <:+: (c :: l) := by
  intro hI
  rcases infixSplit hc [] (show pat <:+: ([] ++ c :: l) by rwa [List.nil_append]) with h1 | h1
  · exact hne (infixOfNil h1)
  · exact h h1

theorem infixSubset {pat l : List Char} (h : pat <:+: l) : ∀ x ∈ pat, x ∈ l := by
  obtain ⟨s, t, rfl⟩ := h
  intro x hx
  simp [hx]

theorem notInfixDisjoint {pat l : List Char} (hne : pat ≠ [])
    (hd : ∀ x ∈ pat, x ∉ l) : ¬ pat <:+: l := by
  intro h
  cases pat with
  | nil => exact hne rfl
  | cons p ps => exact hd p (List.mem_cons_self p ps) (infixSubset h p (List.mem_cons_self p ps))

theorem litStripAppend (p r : List Char) : litStrip p (p ++ r) = some r := by
  induction p with
  | nil => rfl
  | cons c cs ih => simp [litStrip, ih]

theorem litStripSomePre {p s r : List Char} (h : litStrip p s = some r) : p ++ r = s := by
  induction p generalizing s with
  | nil =>
    rw [litStrip] at h
    simpa using (Option.some.inj h).symm
  | cons c cs ih =>
    cases s with
    | nil => simp [litStrip] at h
    | cons b bs =>
      rw [litStrip] at h
      split at h
      · next he => rw [List.cons_append, ih h, he]
      · exact absurd h (by simp)

theorem notInfixOfContainsSubFalse {pat : List Char} :
    ∀ {s : List Char}, containsSub pat s = false → ¬ pat <:+: s := by
  intro s
  induction s with
  | nil =>
    intro h hI
    rw [containsSub] at h
    rw [infixOfNil hI] at h
    simp at h
  | cons c cs ih =>
    intro h hI
    rw [containsSub, Bool.or_eq_false_iff] at h
    rcases infixConsCases hI with h0 | ⟨ps, t, hp, hs⟩ | h2
    · rw [h0] at h
      simp [litStrip] at h
    · have : litStrip pat (c :: cs) = some t := by
        rw [hp, litStrip, if_pos rfl, ← hs]
        exact litStripAppend ps t
      rw [this] at h
      simp at h
    · exact ih h.2 h2

theorem replaceSubAuxId {pat rep : List Char} :
    ∀ (fuel : ℕ) (s : List Char), ¬ pat <:+: s → replaceSubAux pat rep fuel s = s := by
  intro fuel
  induction fuel with
  | zero => intro s _; cases s <;> rfl
  | succ f ih =>
    intro s hs
    cases s with
    | nil => rfl
    | cons c cs =>
      rw [replaceSubAux, if_neg, ih cs (fun h => hs (infixCons h))]
      rintro ⟨hne, hsome⟩
      rw [Option.isSome_iff_exists] at hsome
      obtain ⟨r, hr⟩ := hsome
      exact hs ⟨[], r, by rw [List.nil_append, litStripSomePre hr]⟩

theorem replaceSubId {pat rep s : List Char} (h : ¬ pat <:+: s) : replaceSub pat rep s = s :=
  replaceSubAuxId s.length s h

theorem applyPyJsonReplacesId {s : List Char} (h1 : ¬ pQuote <:+: s) (h2 : ¬ pFalse <:+: s)
    (h3 : ¬ pTrue <:+: s) : applyPyJsonReplaces s = s := by
  rw [applyPyJsonReplaces, replaceSubId h1, replaceSubId h2, replaceSubId h3]

/-! ## Whitespace and digits -/

theorem skipWsConsWs {c : Char} (h : isWsC c = true) (s : List Char) :
    skipWs (c :: s) = skipWs s := by
  simp [skipWs, h]

theorem skipWsConsNotWs {c : Char} (h : isWsC c = false) (s : List Char) :
    skipWs (c :: s) = c :: s := by
  simp [skipWs, h]

theorem skipWsAppendWs {w : List Char} (h : ∀ c ∈ w, isWsC c = true) (s : List Char) :
    skipWs (w ++ s) = skipWs s := by
  induction w with
  | nil => rfl
  | cons c cs ih =>
    rw [List.cons_append, skipWsConsWs (h c (List.mem_cons_self c cs))]
    exact ih (fun x hx => h x (List.mem_cons_of_mem c hx))

theorem digitFacts : ∀ d, d < 10 →
    isDigitC (digitToChar d) = true ∧ charToDigit (digitToChar d) = d ∧
    digitToChar d ≠ dashC ∧ isWsC (digitToChar d) = false ∧
    digitToChar d ≠ quoteC ∧ isNumC (digitToChar d) = true := by
  decide

theorem natDigitsAuxZero (fuel : ℕ) : natDigitsAux fuel 0 = [] := by
  cases fuel <;> rfl

theorem natDigitsAuxLt : ∀ (fuel n : ℕ), ∀ d ∈ natDigitsAux fuel n, d < 10 := by
  intro fuel
  induction fuel with
  | zero => intro n d hd; simp [natDigitsAux] at hd
  | succ f ih =>
    intro n d hd
    cases n with
    | zero => simp [natDigitsAux] at hd
    | succ m =>
      rw [natDigitsAux] at hd
      rcases List.mem_cons.mp hd with h | h
      · rw [h]; exact Nat.mod_lt _ (by norm_num)
      · exact ih _ d h
      · exact Nat.succ_ne_zero m

theorem valLEDigits : ∀ (fuel n : ℕ), n ≤ fuel → valLE (natDigitsAux fuel n) = n := by
  intro fuel
  induction fuel with
  | zero =>
    intro n h
    rw [Nat.le_zero.mp h, natDigitsAuxZero]
    rfl
  | succ f ih =>
    intro n h
    cases n with
    | zero => rw [natDigitsAuxZero]; rfl
    | succ m =>
      rw [natDigitsAux, valLE, ih ((m + 1) / 10) (by
        have := Nat.div_lt_self (Nat.succ_pos m) (by norm_num : 1 < 10)
        omega)]
      · exact Nat.mod_add_div (m + 1) 10
      · exact Nat.succ_ne_zero m

theorem natDigitsAuxLen : ∀ (fuel n k : ℕ), n < 10 ^ k → (natDigitsAux fuel n).length ≤ k := by
  intro fuel
  induction fuel with
  | zero => intro n k _; simp [natDigitsAux]
  | succ f ih =>
    intro n k h
    cases n with
    | zero => simp [natDigitsAuxZero]
    | succ m =>
      cases k with
      | zero => simp at h
      | succ k2 =>
        rw [natDigitsAux, List.length_cons]
        · have hdiv : (m + 1) / 10 < 10 ^ k2 := by
            rw [Nat.div_lt_iff_lt_mul (by norm_num : 0 < 10)]
            calc m + 1 < 10 ^ (k2 + 1) := h
              _ = 10 ^ k2 * 10 := by rw [pow_succ]
          have := ih ((m + 1) / 10) k2 hdiv
          omega
        · exact Nat.succ_ne_zero m

theorem natDigitsBELt (n : ℕ) : ∀ d ∈ natDigitsBE n, d < 10 := by
  intro d hd
  rw [natDigitsBE] at hd
  split at hd
  · simp at hd; omega
  · exact natDigitsAuxLt n n d (List.mem_reverse.mp hd)

theorem natDigitsBENeNil (n : ℕ) : natDigitsBE n ≠ [] := by
  rw [natDigitsBE]
  split
  · simp
  · next h =>
    cases n with
    | zero => exact absurd rfl h
    | succ m =>
      rw [natDigitsAux]
      · simp
      · exact Nat.succ_ne_zero m

theorem natDigitsBELen {n k : ℕ} (hk : 1 ≤ k) (h : n < 10 ^ k) :
    (natDigitsBE n).length ≤ k := by
  rw [natDigitsBE]
  split
  · simpa using hk
  · rw [List.length_reverse]
    exact natDigitsAuxLen n n k h

theorem foldlRevValLE (l : List ℕ) (acc : ℕ) :
    l.reverse.foldl (fun a d => a * 10 + d) acc = acc * 10 ^ l.length + valLE l := by
  induction l generalizing acc with
  | nil => simp [valLE]
  | cons d ds ih =>
    rw [List.reverse_cons, List.foldl_append, ih acc, valLE, List.length_cons]
    simp [List.foldl_cons, List.foldl_nil]
    ring

theorem foldlNatDigitsBE (n acc : ℕ) :
    (natDigitsBE n).foldl (fun a d => a * 10 + d) acc = acc * 10 ^ (natDigitsBE n).length + n := by
  rw [natDigitsBE]
  split
  · next h => simp [List.foldl_cons, List.foldl_nil, h]
  · rw [foldlRevValLE, valLEDigits n n (le_refl n), List.length_reverse]

theorem foldlRepZero : ∀ (j : ℕ), (List.replicate j 0).foldl (fun a d => a * 10 + d) 0 = 0 := by
  intro j
  induction j with
  | zero => rfl
  | succ i ih => rw [List.replicate_succ, List.foldl_cons]; simpa using ih

theorem parseDigitsSpec : ∀ (bs : List ℕ), (∀ d ∈ bs, d < 10) →
    ∀ (acc : ℕ) (rest : List Char), headNotDigit rest →
    parseDigitsAux acc (bs.map digitToChar ++ rest) =
      (bs.foldl (fun a d => a * 10 + d) acc, bs.length, rest) := by
  intro bs
  induction bs with
  | nil =>
    intro _ acc rest hr
    cases rest with
    | nil => rfl
    | cons c cs =>
      rw [List.map_nil, List.nil_append, parseDigitsAux, if_neg]
      · rfl
      · rw [hr c rfl]; simp
  | cons b bs ih =>
    intro hb acc rest hr
    have hb10 : b < 10 := hb b (List.mem_cons_self b bs)
    rw [List.map_cons, List.cons_append, parseDigitsAux,
      if_pos (digitFacts b hb10).1, (digitFacts b hb10).2.1,
      ih (fun d hd => hb d (List.mem_cons_of_mem b hd)) (acc * 10 + b) rest hr,
      List.foldl_cons, List.length_cons]

/-! ## Parsing of rendered numbers -/

theorem ratSumAux (m k : ℕ) :
    (↑(m / 10 ^ k) : ℚ) + (↑(m % 10 ^ k) : ℚ) / 10 ^ k = (m : ℚ) / 10 ^ k := by
  have hp0 : ((10 : ℚ)) ^ k ≠ 0 := pow_ne_zero k (by norm_num)
  rw [eq_div_iff hp0, add_mul, div_mul_cancel₀ _ hp0]
  have hnat := Nat.div_add_mod m (10 ^ k)
  rw [Nat.mul_comm (10 ^ k) (m / 10 ^ k)] at hnat
  rw [show ((10 : ℚ)) ^ k = ((10 ^ k : ℕ) : ℚ) by push_cast; ring]
  exact_mod_cast hnat

theorem renderRatValue (q : ℚ) (hq : decOk q) :
    ((if q.num < 0 then (-1 : ℚ) else 1) *
      ((↑(q.num.natAbs * (10 ^ q.den / q.den) / 10 ^ q.den) : ℚ) +
        (↑(q.num.natAbs * (10 ^ q.den / q.den) % 10 ^ q.den) : ℚ) / 10 ^ q.den)) = q := by
  have hden0 : ((q.den : ℚ)) ≠ 0 := by exact_mod_cast q.den_nz
  have hp0 : ((10 : ℚ)) ^ q.den ≠ 0 := pow_ne_zero _ (by norm_num)
  have hcd : ((10 ^ q.den / q.den : ℕ) : ℚ) = (10 : ℚ) ^ q.den / q.den := by
    rw [Nat.cast_div hq hden0]; push_cast; ring
  have hm : ((q.num.natAbs * (10 ^ q.den / q.den) : ℕ) : ℚ) / 10 ^ q.den =
      (q.num.natAbs : ℚ) / q.den := by
    push_cast [hcd]
    field_simp
    ring
  rw [ratSumAux, hm]
  split_ifs with hneg
  · have h2 : ((q.num.natAbs : ℤ)) = -q.num := by omega
    have h3 : ((q.num.natAbs : ℚ)) = -(q.num : ℚ) := by
      rw [show ((q.num.natAbs : ℚ)) = (((q.num.natAbs : ℤ)) : ℚ) from (Int.cast_natCast _).symm,
        h2, Int.cast_neg]
    rw [h3, show (-1 : ℚ) * (-(q.num : ℚ) / q.den) = (q.num : ℚ) / q.den by ring,
      Rat.num_div_den]
  · have h2 : ((q.num.natAbs : ℤ)) = q.num := by omega
    have h3 : ((q.num.natAbs : ℚ)) = (q.num : ℚ) := by
      rw [show ((q.num.natAbs : ℚ)) = (((q.num.natAbs : ℤ)) : ℚ) from (Int.cast_natCast _).symm,
        h2]
    rw [h3, one_mul, Rat.num_div_den]

theorem headNotDigitOfNumCont {rest : List Char} (h : headNotNumCont rest) :
    headNotDigit rest :=
  fun c hc => (h c hc).1

theorem natToCharsHead (n : ℕ) : ∃ b bs, natToChars n = digitToChar b :: bs ∧ b < 10 := by
  obtain ⟨b, bs, hbe⟩ : ∃ b bs, natDigitsBE n = b :: bs := by
    cases h : natDigitsBE n with
    | nil => exact absurd h (natDigitsBENeNil n)
    | cons b bs => exact ⟨b, bs, rfl⟩
  exact ⟨b, bs.map digitToChar, by rw [natToChars, hbe, List.map_cons],
    natDigitsBELt n b (hbe ▸ List.mem_cons_self b bs)⟩

theorem parseDigitsNatToChars (n : ℕ) (rest : List Char) (hr : headNotDigit rest) :
    parseDigitsAux 0 (natToChars n ++ rest) = (n, (natDigitsBE n).length, rest) := by
  rw [natToChars]
  have h2 := parseDigitsSpec (natDigitsBE n) (natDigitsBELt n) 0 rest hr
  rw [foldlNatDigitsBE, zero_mul, zero_add] at h2
  exact h2

theorem parseNumCoreInt (neg : Bool) (n : ℕ) (rest : List Char) (hr : headNotNumCont rest) :
    parseNumCore neg (natToChars n ++ rest) =
      some (.int (if neg then -(n : ℤ) else (n : ℤ)), rest) := by
  obtain ⟨b, bs, hbe, hb10⟩ := natToCharsHead n
  have key : parseDigitsAux 0 (digitToChar b :: (bs ++ rest)) =
      (n, (natDigitsBE n).length, rest) := by
    rw [← List.cons_append, ← hbe]
    exact parseDigitsNatToChars n rest (headNotDigitOfNumCont hr)
  rw [hbe, List.cons_append, parseNumCore, if_neg (by rw [(digitFacts b hb10).1]; simp),
    key]
  cases rest with
  | nil => rfl
  | cons d r2 =>
    have hd := hr d rfl
    simp [hd.2]

theorem parseNumCoreFrac (neg : Bool) (n k fr : ℕ) (hk : 1 ≤ k) (hfr : fr < 10 ^ k)
    (rest : List Char) (hr : headNotDigit rest) :
    parseNumCore neg (natToChars n ++ (dotC :: (fracRender k fr ++ rest))) =
      some (.num ((if neg then (-1 : ℚ) else 1) * ((n : ℚ) + (fr : ℚ) / 10 ^ k)), rest) := by
  obtain ⟨b, bs, hbe, hb10⟩ := natToCharsHead n
  -- the integer-part digit run stops at the decimal point
  have key : parseDigitsAux 0 (digitToChar b :: (bs ++ (dotC :: (fracRender k fr ++ rest)))) =
      (n, (natDigitsBE n).length, dotC :: (fracRender k fr ++ rest)) := by
    have h0 := parseDigitsNatToChars n (dotC :: (fracRender k fr ++ rest))
      (by intro c hc; cases hc; decide)
    rw [hbe, List.cons_append] at h0
    exact h0
  -- shape and value of the fractional digit run
  have hds2 : fracRender k fr =
      (List.replicate (k - (natDigitsBE fr).length) 0 ++ natDigitsBE fr).map digitToChar := by
    rw [fracRender, List.map_append, List.map_replicate]
  have hlenfr : (natDigitsBE fr).length ≤ k := natDigitsBELen hk hfr
  have hall2 : ∀ d ∈ List.replicate (k - (natDigitsBE fr).length) 0 ++ natDigitsBE fr,
      d < 10 := by
    intro d hd
    rcases List.mem_append.mp hd with h | h
    · rw [List.eq_of_mem_replicate h]; norm_num
    · exact natDigitsBELt fr d h
  obtain ⟨e, es, hds2e⟩ : ∃ e es,
      (List.replicate (k - (natDigitsBE fr).length) 0 ++ natDigitsBE fr) = e :: es := by
    cases h : List.replicate (k - (natDigitsBE fr).length) 0 ++ natDigitsBE fr with
    | nil =>
      rcases List.append_eq_nil.mp h with ⟨-, h2⟩
      exact absurd h2 (natDigitsBENeNil fr)
    | cons e es => exact ⟨e, es, rfl⟩
  have he10 : e < 10 := hall2 e (hds2e ▸ List.mem_cons_self e es)
  have hcount : (List.replicate (k - (natDigitsBE fr).length) 0 ++ natDigitsBE fr).length = k := by
    rw [List.length_append, List.length_replicate]
    omega
  have key2 : parseDigitsAux 0 (fracRender k fr ++ rest) = (fr, k, rest) := by
    have hfold2 := parseDigitsSpec _ hall2 0 rest hr
    rw [List.foldl_append, foldlRepZero, foldlNatDigitsBE, zero_mul, zero_add, hcount] at hfold2
    rw [hds2]
    exact hfold2
  have hfrhead : ∃ tl, fracRender k fr = digitToChar e :: tl := by
    rw [hds2, hds2e, List.map_cons]
    exact ⟨es.map digitToChar, rfl⟩
  obtain ⟨tl, htl⟩ := hfrhead
  rw [hbe, List.cons_append]
  rw [parseNumCore]
  rw [if_neg (by rw [(digitFacts b hb10).1]; simp)]
  rw [key]
  simp only []
  rw [if_true]
  rw [htl, List.cons_append]
  simp only []
  rw [if_pos (digitFacts e he10).1, ← List.cons_append, ← htl, key2]

theorem parseNumRenderInt (i : ℤ) (rest : List Char) (hr : headNotNumCont rest) :
    parseNum (renderInt i ++ rest) = some (.int i, rest) := by
  rw [renderInt]
  split_ifs with hneg
  · rw [List.singleton_append, List.cons_append, parseNum, if_pos rfl,
      parseNumCoreInt true i.natAbs rest hr]
    have h2 : -((i.natAbs : ℤ)) = i := by omega
    rw [show (if true then -((i.natAbs : ℤ)) else ((i.natAbs : ℤ))) = -((i.natAbs : ℤ)) from rfl,
      h2]
  · rw [List.nil_append]
    obtain ⟨b, bs, hbe, hb10⟩ := natToCharsHead i.natAbs
    rw [hbe, List.cons_append, parseNum, if_neg (digitFacts b hb10).2.2.1,
      ← List.cons_append, ← hbe, parseNumCoreInt false i.natAbs rest hr]
    have h2 : ((i.natAbs : ℤ)) = i := by omega
    rw [show (if false then -((i.natAbs : ℤ)) else ((i.natAbs : ℤ))) = ((i.natAbs : ℤ)) from rfl,
      h2]

theorem parseNumRenderRat (q : ℚ) (hq : decOk q) (rest : List Char) (hr : headNotDigit rest) :
    parseNum (renderRat q ++ rest) = some (.num q, rest) := by
  have hfr : q.num.natAbs * (10 ^ q.den / q.den) % 10 ^ q.den < 10 ^ q.den :=
    Nat.mod_lt _ (pow_pos (by norm_num) q.den)
  have hv := renderRatValue q hq
  rw [renderRat]
  simp only [List.append_assoc, List.cons_append]
  split_ifs with hneg
  · rw [List.singleton_append, parseNum, if_pos rfl,
      parseNumCoreFrac true _ q.den _ q.pos hfr rest hr]
    rw [if_pos hneg] at hv
    rw [show (if (true : Bool) then (-1 : ℚ) else 1) = -1 from rfl, hv]
  · rw [List.nil_append]
    obtain ⟨b, bs, hbe, hb10⟩ := natToCharsHead
      (q.num.natAbs * (10 ^ q.den / q.den) / 10 ^ q.den)
    rw [hbe, List.cons_append, parseNum, if_neg (digitFacts b hb10).2.2.1,
      ← List.cons_append, ← hbe,
      parseNumCoreFrac false _ q.den _ q.pos hfr rest hr]
    rw [if_neg hneg] at hv
    rw [show (if (false : Bool) then (-1 : ℚ) else 1) = 1 from rfl, hv]

/-! ## Parsing of rendered strings and scalar values -/

theorem safeCharFacts {c : Char} (h : safeChar c = true) :
    c ≠ quoteC ∧ c ≠ bslashC ∧ c ≠ apoC ∧ 32 ≤ c.toNat ∧ c.toNat < 127 := by
  rw [safeChar] at h
  simp only [Bool.and_eq_true, Bool.not_eq_true', decide_eq_false_iff_not,
    decide_eq_true_eq] at h
  exact ⟨h.1.1.2, h.1.2, h.2, h.1.1.1.1, h.1.1.1.2⟩

theorem escapeCharId {c : Char} (h : safeChar c = true) : escapeChar c = [c] := by
  obtain ⟨h1, h2, -, h4, h5⟩ := safeCharFacts h
  rw [escapeChar, if_neg h1, if_neg h2, if_neg (by omega), if_neg (by omega),
    if_neg (by omega), if_neg (by omega)]

theorem escapeStrId {s : List Char} (h : ∀ c ∈ s, safeChar c = true) : escapeStr s = s := by
  induction s with
  | nil => rfl
  | cons c cs ih =>
    rw [escapeStr, escapeCharId (h c (List.mem_cons_self c cs)),
      ih (fun x hx => h x (List.mem_cons_of_mem c hx)), List.singleton_append]

theorem parseStringBodySafe {s : List Char} (h : ∀ c ∈ s, safeChar c = true)
    (rest : List Char) : parseStringBody (s ++ (quoteC :: rest)) = some (s, rest) := by
  induction s with
  | nil =>
    rw [List.nil_append, parseStringBody.eq_def]
    simp only []
    rw [if_true]
  | cons c cs ih =>
    obtain ⟨h1, h2, -, -, -⟩ := safeCharFacts (h c (List.mem_cons_self c cs))
    rw [List.cons_append, parseStringBody.eq_def]
    simp only []
    rw [if_neg h1, if_neg h2, ih (fun x hx => h x (List.mem_cons_of_mem c hx))]
    rfl

theorem stringMkData (s : String) : String.mk s.data = s := rfl

theorem parseValueConsWs {c : Char} (h : isWsC c = true) (s : List Char) :
    parseValue (c :: s) = parseValue s := by
  rw [parseValue, parseValue, skipWsConsWs h]

theorem parseValueRenderStr {s : String} (h : ∀ c ∈ s.data, safeChar c = true)
    (rest : List Char) : parseValue (renderVal (.str s) ++ rest) = some (.str s, rest) := by
  have hsh : renderVal (.str s) ++ rest = quoteC :: (escapeStr s.data ++ (quoteC :: rest)) := by
    rw [renderVal]
    simp [List.append_assoc, List.cons_append]
  rw [hsh, escapeStrId h, parseValue, skipWsConsNotWs (by decide)]
  simp only []
  rw [if_true, parseStringBodySafe h rest]
  rfl

theorem parseValueRenderInt (i : ℤ) (rest : List Char) (hr : headNotNumCont rest) :
    parseValue (renderVal (.int i) ++ rest) = some (.int i, rest) := by
  have hpn := parseNumRenderInt i rest hr
  rw [renderInt] at hpn
  rw [renderVal, renderInt]
  by_cases hneg : i < 0
  · rw [if_pos hneg] at hpn ⊢
    rw [List.singleton_append, List.cons_append] at hpn ⊢
    rw [parseValue, skipWsConsNotWs (by decide)]
    simp only []
    rw [if_pos (Or.inl trivial)]
    exact hpn
  · rw [if_neg hneg] at hpn ⊢
    rw [List.nil_append] at hpn ⊢
    obtain ⟨b, bs, hbe, hb10⟩ := natToCharsHead i.natAbs
    rw [hbe, List.cons_append] at hpn ⊢
    rw [parseValue, skipWsConsNotWs (digitFacts b hb10).2.2.2.1]
    simp only []
    rw [if_neg (digitFacts b hb10).2.2.2.2.1, if_pos (Or.inr (digitFacts b hb10).1)]
    exact hpn

theorem parseValueRenderNum (q : ℚ) (hq : decOk q) (rest : List Char)
    (hr : headNotDigit rest) :
    parseValue (renderVal (.num q) ++ rest) = some (.num q, rest) := by
  have hpn := parseNumRenderRat q hq rest hr
  rw [renderRat] at hpn
  rw [renderVal, renderRat]
  simp only [List.append_assoc, List.cons_append] at hpn ⊢
  by_cases hneg : q.num < 0
  · rw [if_pos hneg] at hpn ⊢
    rw [List.singleton_append] at hpn ⊢
    rw [parseValue, skipWsConsNotWs (by decide)]
    simp only []
    rw [if_pos (Or.inl trivial)]
    exact hpn
  · rw [if_neg hneg] at hpn ⊢
    rw [List.nil_append] at hpn ⊢
    obtain ⟨b, bs, hbe, hb10⟩ := natToCharsHead
      (q.num.natAbs * (10 ^ q.den / q.den) / 10 ^ q.den)
    rw [hbe, List.cons_append] at hpn ⊢
    rw [parseValue, skipWsConsNotWs (digitFacts b hb10).2.2.2.1]
    simp only []
    rw [if_neg (digitFacts b hb10).2.2.2.2.1, if_pos (Or.inr (digitFacts b hb10).1)]
    exact hpn

theorem parseValueRenderBool (b : Bool) (rest : List Char) :
    parseValue (renderVal (.bool b) ++ rest) = some (.bool b, rest) := by
  cases b with
  | false =>
    rw [renderVal, falseLit, List.cons_append, parseValue, skipWsConsNotWs (by decide)]
    simp only []
    rw [if_neg (by decide), if_neg (by decide)]
    rw [show litStrip trueLit ('f' :: (['a', 'l', 's', 'e'] ++ rest)) = none by
      rw [trueLit, litStrip, if_neg (by decide)]]
    rw [show ('f' :: (['a', 'l', 's', 'e'] ++ rest)) = falseLit ++ rest by
      rw [falseLit]; simp [List.cons_append]]
    rw [litStripAppend falseLit rest]
  | true =>
    rw [renderVal, trueLit, List.cons_append, parseValue, skipWsConsNotWs (by decide)]
    simp only []
    rw [if_neg (by decide), if_neg (by decide)]
    rw [show ('t' :: (['r', 'u', 'e'] ++ rest)) = trueLit ++ rest by
      rw [trueLit]; simp [List.cons_append]]
    rw [litStripAppend trueLit rest]

theorem parseValueRenderNull (rest : List Char) :
    parseValue (renderVal .null ++ rest) = some (.null, rest) := by
  rw [renderVal, nullLit, List.cons_append, parseValue, skipWsConsNotWs (by decide)]
  simp only []
  rw [if_neg (by decide), if_neg (by decide)]
  rw [show litStrip trueLit ('n' :: (['u', 'l', 'l'] ++ rest)) = none by
    rw [trueLit, litStrip, if_neg (by decide)]]
  rw [show litStrip falseLit ('n' :: (['u', 'l', 'l'] ++ rest)) = none by
    rw [falseLit, litStrip, if_neg (by decide)]]
  rw [show ('n' :: (['u', 'l', 'l'] ++ rest)) = nullLit ++ rest by
    rw [nullLit]; simp [List.cons_append]]
  rw [litStripAppend nullLit rest]

theorem parseValueRenderAny (v : PyVal) (hv : valOK v) (rest : List Char)
    (h1 : headNotDigit rest) (h2 : ∀ c, rest.head? = some c → c ≠ dotC) :
    parseValue (renderVal v ++ rest) = some (v, rest) := by
  cases v with
  | str s => exact parseValueRenderStr hv rest
  | int i => exact parseValueRenderInt i rest (fun c hc => ⟨h1 c hc, h2 c hc⟩)
  | num q => exact parseValueRenderNum q hv rest h1
  | bool b => exact parseValueRenderBool b rest
  | null => exact parseValueRenderNull rest

/-! ## Parsing of rendered objects -/

theorem headNotDigitCons {c : Char} (h : isDigitC c = false) (tail : List Char) :
    headNotDigit (c :: tail) := by
  intro x hx
  rw [List.head?_cons] at hx
  injection hx with hx2
  rw [← hx2]
  exact h

theorem headNotDotCons {c : Char} (h : c ≠ dotC) (tail : List Char) :
    ∀ x, (c :: tail).head? = some x → x ≠ dotC := by
  intro x hx
  rw [List.head?_cons] at hx
  injection hx with hx2
  rw [← hx2]
  exact h

theorem parseMembersAuxConsWs (fuel : ℕ) {c : Char} (h : isWsC c = true) (s : List Char) :
    parseMembersAux fuel (c :: s) = parseMembersAux fuel s := by
  cases fuel with
  | zero => rfl
  | succ f => rw [parseMembersAux, parseMembersAux, skipWsConsWs h]

theorem indent4Ws : ∀ c ∈ indent4, isWsC c = true := by decide

theorem renderEntriesLen (d : List (String × PyVal)) :
    d.length ≤ (renderEntries d).length := by
  induction d with
  | nil => simp [renderEntries]
  | cons e es ih =>
    cases es with
    | nil =>
      rw [renderEntries]
      simp [indent4, List.length_append]
    | cons e2 tl =>
      rw [renderEntries]
      · simp only [List.length_append, List.length_cons, List.length_cons] at ih ⊢
        simp [indent4]
        omega
      · exact fun h => List.noConfusion h

theorem parseMembersRender :
    ∀ (d : List (String × PyVal)), d ≠ [] → (∀ e ∈ d, entryOK e) →
    ∀ (fuel : ℕ), d.length ≤ fuel → ∀ (rest : List Char),
    parseMembersAux fuel (renderEntries d ++ (nlC :: cbraceC :: rest)) = some (d, rest) := by
  intro d
  induction d with
  | nil => intro h; exact absurd rfl h
  | cons e es ih =>
    intro _ hok fuel hf rest
    obtain ⟨f, rfl⟩ : ∃ f, fuel = f + 1 := by
      cases fuel with
      | zero => simp at hf
      | succ f => exact ⟨f, rfl⟩
    have hkeyOK : ∀ c ∈ e.1.data, safeChar c = true := (hok e (List.mem_cons_self e es)).1
    have hvOK : valOK e.2 := (hok e (List.mem_cons_self e es)).2
    cases es with
    | nil =>
      have hsh : renderEntries [e] ++ (nlC :: cbraceC :: rest) =
          indent4 ++ (quoteC :: (e.1.data ++ (quoteC ::
            (colonC :: (spC :: (renderVal e.2 ++ (nlC :: cbraceC :: rest))))))) := by
        rw [renderEntries, renderEntry]
        simp [List.append_assoc, List.cons_append]
      rw [hsh, parseMembersAux, skipWsAppendWs indent4Ws, skipWsConsNotWs (by decide)]
      simp only []
      rw [if_true, parseStringBodySafe hkeyOK]
      simp only []
      rw [skipWsConsNotWs (by decide)]
      simp only []
      rw [if_true, parseValueConsWs (by decide),
        parseValueRenderAny e.2 hvOK _ (headNotDigitCons (by decide) _)
          (headNotDotCons (by decide) _)]
      simp only []
      rw [skipWsConsWs (by decide), skipWsConsNotWs (by decide)]
      simp only []
      rw [if_neg (by decide), if_true]
    | cons e2 tl =>
      have hsh : renderEntries (e :: e2 :: tl) ++ (nlC :: cbraceC :: rest) =
          indent4 ++ (quoteC :: (e.1.data ++ (quoteC ::
            (colonC :: (spC :: (renderVal e.2 ++ (commaC :: (nlC ::
              (renderEntries (e2 :: tl) ++ (nlC :: cbraceC :: rest)))))))))) := by
        rw [renderEntries, renderEntry]
        · simp [List.append_assoc, List.cons_append]
        · exact fun h => List.noConfusion h
      rw [hsh, parseMembersAux, skipWsAppendWs indent4Ws, skipWsConsNotWs (by decide)]
      simp only []
      rw [if_true, parseStringBodySafe hkeyOK]
      simp only []
      rw [skipWsConsNotWs (by decide)]
      simp only []
      rw [if_true, parseValueConsWs (by decide),
        parseValueRenderAny e.2 hvOK _ (headNotDigitCons (by decide) _)
          (headNotDotCons (by decide) _)]
      simp only []
      rw [skipWsConsNotWs (by decide)]
      simp only []
      rw [if_true, parseMembersAuxConsWs f (by decide),
        ih (by simp) (fun x hx => hok x (List.mem_cons_of_mem e hx)) f
          (by simp at hf ⊢; omega) rest]
      rfl

theorem renderEntriesConsShape (e : String × PyVal) (es : List (String × PyVal)) :
    ∃ tail, renderEntries (e :: es) = indent4 ++ (quoteC :: tail) := by
  cases es with
  | nil =>
    refine ⟨e.1.data ++ (quoteC :: (colonC :: (spC :: renderVal e.2))), ?_⟩
    rw [renderEntries, renderEntry]
    simp [List.append_assoc, List.cons_append]
  | cons e2 tl =>
    refine ⟨e.1.data ++ (quoteC :: (colonC :: (spC :: (renderVal e.2 ++
      (commaC :: (nlC :: renderEntries (e2 :: tl))))))), ?_⟩
    rw [renderEntries, renderEntry]
    · simp [List.append_assoc, List.cons_append]
    · exact fun h => List.noConfusion h

theorem loadsDumps (d : List (String × PyVal)) (hne : d ≠ []) (hok : ∀ e ∈ d, entryOK e) :
    loads (dumpsDict d) = some d := by
  obtain ⟨e, es, rfl⟩ : ∃ e es, d = e :: es := by
    cases d with
    | nil => exact absurd rfl hne
    | cons e es => exact ⟨e, es, rfl⟩
  obtain ⟨tail, htail⟩ := renderEntriesConsShape e es
  have hdump : dumpsDict (e :: es) =
      obraceC :: (nlC :: (renderEntries (e :: es) ++ (nlC :: cbraceC :: []))) := by
    rw [dumpsDict]
    simp [List.cons_append, List.append_assoc]
  have hhead : skipWs (renderEntries (e :: es) ++ (nlC :: cbraceC :: [])) =
      quoteC :: (tail ++ (nlC :: cbraceC :: [])) := by
    rw [htail]
    rw [show (indent4 ++ (quoteC :: tail)) ++ (nlC :: cbraceC :: []) =
      indent4 ++ (quoteC :: (tail ++ (nlC :: cbraceC :: []))) by
        simp [List.append_assoc, List.cons_append]]
    rw [skipWsAppendWs indent4Ws, skipWsConsNotWs (by decide)]
  have hfuel : (e :: es).length ≤ (dumpsDict (e :: es)).length + 1 := by
    have hrl := renderEntriesLen (e :: es)
    rw [hdump]
    simp only [List.length_cons, List.length_append, List.length_nil] at hrl ⊢
    omega
  rw [hdump] at hfuel
  rw [hdump, loads.eq_def, skipWsConsNotWs (by decide)]
  simp only []
  rw [if_true, skipWsConsWs (by decide), hhead]
  simp only []
  rw [if_neg (by decide), parseMembersAuxConsWs _ (by decide),
    parseMembersRender (e :: es) (by simp) hok _ (by simpa using hfuel) []]
  rfl

/-! ## No occurrence of the replaced patterns in rendered JSON -/

theorem natToCharsNum (n : ℕ) : ∀ c ∈ natToChars n, isNumC c = true := by
  intro c hc
  rw [natToChars] at hc
  obtain ⟨d, hd, rfl⟩ := List.mem_map.mp hc
  exact (digitFacts d (natDigitsBELt n d hd)).2.2.2.2.2

theorem renderIntNumChars (i : ℤ) : ∀ c ∈ renderInt i, isNumC c = true := by
  intro c hc
  rw [renderInt] at hc
  rcases List.mem_append.mp hc with h | h
  · split at h
    · rw [List.mem_singleton] at h
      rw [h]
      decide
    · simp at h
  · exact natToCharsNum _ c h

theorem renderRatNumChars (q : ℚ) : ∀ c ∈ renderRat q, isNumC c = true := by
  intro c hc
  rw [renderRat] at hc
  rcases List.mem_append.mp hc with h | h
  · rcases List.mem_append.mp h with h2 | h2
    · split at h2
      · rw [List.mem_singleton] at h2
        rw [h2]
        decide
      · simp at h2
    · exact natToCharsNum _ c h2
  · rcases List.mem_cons.mp h with h2 | h2
    · rw [h2]; decide
    · rw [fracRender] at h2
      rcases List.mem_append.mp h2 with h3 | h3
      · rw [List.eq_of_mem_replicate h3]
        decide
      · obtain ⟨d, hd, rfl⟩ := List.mem_map.mp h3
        exact (digitFacts d (natDigitsBELt _ d hd)).2.2.2.2.2

theorem notInfixNum {pat : List Char} (hne : pat ≠ [])
    (hnum : ∀ c ∈ pat, isNumC c = false) {l : List Char}
    (hl : ∀ c ∈ l, isNumC c = true) : ¬ pat <:+: l := by
  refine notInfixDisjoint hne ?_
  intro x hx hmem
  have h1 := hl x hmem
  have h2 := hnum x hx
  rw [h1] at h2
  simp at h2

theorem notInfixRenderVal {pat : List Char} (hne : pat ≠ []) (hsep : sepOK pat)
    (v : PyVal) (hv : valNoPat pat v) (hsafe : valOK v) : ¬ pat <:+: renderVal v := by
  obtain ⟨hq, hcol, hsp, hcom, hnl, hob, hcb⟩ := hsep
  cases v with
  | str s =>
    have hgl : renderVal (.str s) = quoteC :: (s.data ++ (quoteC :: [])) := by
      rw [renderVal, escapeStrId hsafe]
      simp [List.cons_append, List.append_assoc]
    rw [hgl]
    exact notInfixConsSep hq hne (notInfixAppendSep hq hv (notInfixNil hne))
  | int i => exact notInfixNum hne hv (renderIntNumChars i)
  | num q => exact notInfixNum hne hv (renderRatNumChars q)
  | bool b =>
    cases b with
    | false => simpa using hv
    | true => simpa using hv
  | null => exact hv

theorem notInfixRenderEntry {pat : List Char} (hne : pat ≠ []) (hsep : sepOK pat)
    (e : String × PyVal) (hkey : ¬ pat <:+: e.1.data) (hv : valNoPat pat e.2)
    (hsafe : valOK e.2) : ¬ pat <:+: renderEntry e := by
  obtain ⟨hq, hcol, hsp, hcom, hnl, hob, hcb⟩ := hsep
  have hgl : renderEntry e =
      quoteC :: (e.1.data ++ (quoteC :: (colonC :: (spC :: renderVal e.2)))) := by
    rw [renderEntry]
    simp [List.cons_append, List.append_assoc]
  rw [hgl]
  exact notInfixConsSep hq hne (notInfixAppendSep hq hkey (notInfixConsSep hcol hne
    (notInfixConsSep hsp hne (notInfixRenderVal hne ⟨hq, hcol, hsp, hcom, hnl, hob, hcb⟩
      e.2 hv hsafe))))

theorem notInfixRenderEntries {pat : List Char} (hne : pat ≠ []) (hsep : sepOK pat) :
    ∀ (d : List (String × PyVal)),
      (∀ e ∈ d, ¬ pat <:+: e.1.data ∧ valNoPat pat e.2 ∧ valOK e.2) →
      ¬ pat <:+: renderEntries d := by
  intro d
  induction d with
  | nil =>
    intro _
    rw [renderEntries]
    exact notInfixNil hne
  | cons e es ih =>
    intro hents
    obtain ⟨hkey, hv, hsafe⟩ := hents e (List.mem_cons_self e es)
    obtain ⟨hq, hcol, hsp, hcom, hnl, hob, hcb⟩ := hsep
    cases es with
    | nil =>
      have hgl : renderEntries [e] = spC :: (spC :: (spC :: (spC :: renderEntry e))) := by
        rw [renderEntries, indent4]
        simp [List.cons_append]
      rw [hgl]
      exact notInfixConsSep hsp hne (notInfixConsSep hsp hne (notInfixConsSep hsp hne
        (notInfixConsSep hsp hne (notInfixRenderEntry hne
          ⟨hq, hcol, hsp, hcom, hnl, hob, hcb⟩ e hkey hv hsafe))))
    | cons e2 tl =>
      have hgl : renderEntries (e :: e2 :: tl) = spC :: (spC :: (spC :: (spC ::
          (renderEntry e ++ (commaC :: (nlC :: renderEntries (e2 :: tl))))))) := by
        rw [renderEntries, indent4]
        · simp [List.cons_append, List.append_assoc]
        · exact fun h => List.noConfusion h
      rw [hgl]
      refine notInfixConsSep hsp hne (notInfixConsSep hsp hne (notInfixConsSep hsp hne
        (notInfixConsSep hsp hne (notInfixAppendSep hcom ?_ (notInfixConsSep hnl hne ?_)))))
      · exact notInfixRenderEntry hne ⟨hq, hcol, hsp, hcom, hnl, hob, hcb⟩ e hkey hv hsafe
      · exact ih (fun x hx => hents x (List.mem_cons_of_mem e hx))

theorem notInfixDumps {pat : List Char} (hne : pat ≠ []) (hsep : sepOK pat)
    (d : List (String × PyVal))
    (hents : ∀ e ∈ d, ¬ pat <:+: e.1.data ∧ valNoPat pat e.2 ∧ valOK e.2) :
    ¬ pat <:+: dumpsDict d := by
  obtain ⟨hq, hcol, hsp, hcom, hnl, hob, hcb⟩ := hsep
  cases d with
  | nil =>
    rw [dumpsDict]
    exact notInfixConsSep hob hne (notInfixConsSep hcb hne (notInfixNil hne))
  | cons e es =>
    have hgl : dumpsDict (e :: es) = obraceC :: (nlC :: (renderEntries (e :: es) ++
        (nlC :: (cbraceC :: [])))) := by
      rw [dumpsDict]
      simp [List.cons_append, List.append_assoc]
    rw [hgl]
    exact notInfixConsSep hob hne (notInfixConsSep hnl hne (notInfixAppendSep hnl
      (notInfixRenderEntries hne ⟨hq, hcol, hsp, hcom, hnl, hob, hcb⟩ (e :: es) hents)
      (notInfixConsSep hcb hne (notInfixNil hne))))

theorem strOkFacts {s : String} (h : strOkB s = true) :
    (∀ c ∈ s.data, safeChar c = true) ∧
      ¬ pQuote <:+: s.data ∧ ¬ pFalse <:+: s.data ∧ ¬ pTrue <:+: s.data := by
  rw [strOkB] at h
  simp only [Bool.and_eq_true, Bool.not_eq_true', List.all_eq_true] at h
  refine ⟨h.1.1, notInfixDisjoint (by decide) ?_, notInfixOfContainsSubFalse h.2,
    notInfixOfContainsSubFalse h.1.2⟩
  intro x hx hmem
  have hs := h.1.1 x hmem
  rw [pQuote, List.mem_singleton] at hx
  rw [hx] at hs
  exact absurd hs (by decide)

/-! ## The codec round trip, record by record -/

theorem keyFacts : ∀ k ∈ (["name", "typeID", "locationID", "value", "timestamp",
    "command", "isResponse", "statusCode", "cpuUtilization", "memoryUtilization",
    "diskUtilization"] : List String),
    (∀ c ∈ k.data, safeChar c = true) ∧ containsSub pQuote k.data = false ∧
    containsSub pFalse k.data = false ∧ containsSub pTrue k.data = false := by
  decide

theorem numNoPats : (∀ c ∈ pQuote, isNumC c = false) ∧ (∀ c ∈ pFalse, isNumC c = false) ∧
    (∀ c ∈ pTrue, isNumC c = false) := by
  decide

theorem sensorJsonFacts (r : SensorData) (hok : sensorDataOk r) :
    (∀ e ∈ sensorToDict r, entryOK e) ∧
    ¬ pQuote <:+: dumpsDict (sensorToDict r) ∧
    ¬ pFalse <:+: dumpsDict (sensorToDict r) ∧
    ¬ pTrue <:+: dumpsDict (sensorToDict r) := by
  obtain ⟨hn, hl, ht, hv⟩ := hok
  obtain ⟨hnS, hnQ, hnF, hnT⟩ := strOkFacts hn
  obtain ⟨hlS, hlQ, hlF, hlT⟩ := strOkFacts hl
  obtain ⟨htS, htQ, htF, htT⟩ := strOkFacts ht
  refine ⟨?_, notInfixDumps (by decide) (by unfold sepOK; decide) _ ?_,
    notInfixDumps (by decide) (by unfold sepOK; decide) _ ?_,
    notInfixDumps (by decide) (by unfold sepOK; decide) _ ?_⟩
  all_goals intro e he
  all_goals rw [sensorToDict] at he
  all_goals simp only [List.mem_cons, List.not_mem_nil, or_false] at he
  · rcases he with rfl | rfl | rfl | rfl | rfl
    · exact ⟨(keyFacts "name" (by decide)).1, hnS⟩
    · exact ⟨(keyFacts "typeID" (by decide)).1, trivial⟩
    · exact ⟨(keyFacts "locationID" (by decide)).1, hlS⟩
    · exact ⟨(keyFacts "value" (by decide)).1, hv⟩
    · exact ⟨(keyFacts "timestamp" (by decide)).1, htS⟩
  · rcases he with rfl | rfl | rfl | rfl | rfl
    · exact ⟨notInfixOfContainsSubFalse (keyFacts "name" (by decide)).2.1, hnQ, hnS⟩
    · exact ⟨notInfixOfContainsSubFalse (keyFacts "typeID" (by decide)).2.1, numNoPats.1, trivial⟩
    · exact ⟨notInfixOfContainsSubFalse (keyFacts "locationID" (by decide)).2.1, hlQ, hlS⟩
    · exact ⟨notInfixOfContainsSubFalse (keyFacts "value" (by decide)).2.1, numNoPats.1, hv⟩
    · exact ⟨notInfixOfContainsSubFalse (keyFacts "timestamp" (by decide)).2.1, htQ, htS⟩
  · rcases he with rfl | rfl | rfl | rfl | rfl
    · exact ⟨notInfixOfContainsSubFalse (keyFacts "name" (by decide)).2.2.1, hnF, hnS⟩
    · exact ⟨notInfixOfContainsSubFalse (keyFacts "typeID" (by decide)).2.2.1, numNoPats.2.1, trivial⟩
    · exact ⟨notInfixOfContainsSubFalse (keyFacts "locationID" (by decide)).2.2.1, hlF, hlS⟩
    · exact ⟨notInfixOfContainsSubFalse (keyFacts "value" (by decide)).2.2.1, numNoPats.2.1, hv⟩
    · exact ⟨notInfixOfContainsSubFalse (keyFacts "timestamp" (by decide)).2.2.1, htF, htS⟩
  · rcases he with rfl | rfl | rfl | rfl | rfl
    · exact ⟨notInfixOfContainsSubFalse (keyFacts "name" (by decide)).2.2.2, hnT, hnS⟩
    · exact ⟨notInfixOfContainsSubFalse (keyFacts "typeID" (by decide)).2.2.2, numNoPats.2.2, trivial⟩
    · exact ⟨notInfixOfContainsSubFalse (keyFacts "locationID" (by decide)).2.2.2, hlT, hlS⟩
    · exact ⟨notInfixOfContainsSubFalse (keyFacts "value" (by decide)).2.2.2, numNoPats.2.2, hv⟩
    · exact ⟨notInfixOfContainsSubFalse (keyFacts "timestamp" (by decide)).2.2.2, htT, htS⟩

theorem actuatorJsonFacts (r : ActuatorData) (hok : actuatorDataOk r) :
    (∀ e ∈ actuatorToDict r, entryOK e) ∧
    ¬ pQuote <:+: dumpsDict (actuatorToDict r) ∧
    ¬ pFalse <:+: dumpsDict (actuatorToDict r) ∧
    ¬ pTrue <:+: dumpsDict (actuatorToDict r) := by
  obtain ⟨hn, hl, hv⟩ := hok
  obtain ⟨hnS, hnQ, hnF, hnT⟩ := strOkFacts hn
  obtain ⟨hlS, hlQ, hlF, hlT⟩ := strOkFacts hl
  refine ⟨?_, notInfixDumps (by decide) (by unfold sepOK; decide) _ ?_,
    notInfixDumps (by decide) (by unfold sepOK; decide) _ ?_,
    notInfixDumps (by decide) (by unfold sepOK; decide) _ ?_⟩
  all_goals intro e he
  all_goals rw [actuatorToDict] at he
  all_goals simp only [List.mem_cons, List.not_mem_nil, or_false] at he
  · rcases he with rfl | rfl | rfl | rfl | rfl | rfl | rfl
    · exact ⟨(keyFacts "name" (by decide)).1, hnS⟩
    · exact ⟨(keyFacts "typeID" (by decide)).1, trivial⟩
    · exact ⟨(keyFacts "locationID" (by decide)).1, hlS⟩
    · exact ⟨(keyFacts "command" (by decide)).1, trivial⟩
    · exact ⟨(keyFacts "value" (by decide)).1, hv⟩
    · exact ⟨(keyFacts "isResponse" (by decide)).1, trivial⟩
    · exact ⟨(keyFacts "statusCode" (by decide)).1, trivial⟩
  · rcases he with rfl | rfl | rfl | rfl | rfl | rfl | rfl
    · exact ⟨notInfixOfContainsSubFalse (keyFacts "name" (by decide)).2.1, hnQ, hnS⟩
    · exact ⟨notInfixOfContainsSubFalse (keyFacts "typeID" (by decide)).2.1, numNoPats.1, trivial⟩
    · exact ⟨notInfixOfContainsSubFalse (keyFacts "locationID" (by decide)).2.1, hlQ, hlS⟩
    · exact ⟨notInfixOfContainsSubFalse (keyFacts "command" (by decide)).2.1, numNoPats.1, trivial⟩
    · exact ⟨notInfixOfContainsSubFalse (keyFacts "value" (by decide)).2.1, numNoPats.1, hv⟩
    · exact ⟨notInfixOfContainsSubFalse (keyFacts "isResponse" (by decide)).2.1, by cases r.isResponse <;> exact notInfixOfContainsSubFalse (by decide), trivial⟩
    · exact ⟨notInfixOfContainsSubFalse (keyFacts "statusCode" (by decide)).2.1, numNoPats.1, trivial⟩
  · rcases he with rfl | rfl | rfl | rfl | rfl | rfl | rfl
    · exact ⟨notInfixOfContainsSubFalse (keyFacts "name" (by decide)).2.2.1, hnF, hnS⟩
    · exact ⟨notInfixOfContainsSubFalse (keyFacts "typeID" (by decide)).2.2.1, numNoPats.2.1, trivial⟩
    · exact ⟨notInfixOfContainsSubFalse (keyFacts "locationID" (by decide)).2.2.1, hlF, hlS⟩
    · exact ⟨notInfixOfContainsSubFalse (keyFacts "command" (by decide)).2.2.1, numNoPats.2.1, trivial⟩
    · exact ⟨notInfixOfContainsSubFalse (keyFacts "value" (by decide)).2.2.1, numNoPats.2.1, hv⟩
    · exact ⟨notInfixOfContainsSubFalse (keyFacts "isResponse" (by decide)).2.2.1, by cases r.isResponse <;> exact notInfixOfContainsSubFalse (by decide), trivial⟩
    · exact ⟨notInfixOfContainsSubFalse (keyFacts "statusCode" (by decide)).2.2.1, numNoPats.2.1, trivial⟩
  · rcases he with rfl | rfl | rfl | rfl | rfl | rfl | rfl
    · exact ⟨notInfixOfContainsSubFalse (keyFacts "name" (by decide)).2.2.2, hnT, hnS⟩
    · exact ⟨notInfixOfContainsSubFalse (keyFacts "typeID" (by decide)).2.2.2, numNoPats.2.2, trivial⟩
    · exact ⟨notInfixOfContainsSubFalse (keyFacts "locationID" (by decide)).2.2.2, hlT, hlS⟩
    · exact ⟨notInfixOfContainsSubFalse (keyFacts "command" (by decide)).2.2.2, numNoPats.2.2, trivial⟩
    · exact ⟨notInfixOfContainsSubFalse (keyFacts "value" (by decide)).2.2.2, numNoPats.2.2, hv⟩
    · exact ⟨notInfixOfContainsSubFalse (keyFacts "isResponse" (by decide)).2.2.2, by cases r.isResponse <;> exact notInfixOfContainsSubFalse (by decide), trivial⟩
    · exact ⟨notInfixOfContainsSubFalse (keyFacts "statusCode" (by decide)).2.2.2, numNoPats.2.2, trivial⟩

theorem sysPerfJsonFacts (r : SystemPerformanceData) (hok : sysPerfDataOk r) :
    (∀ e ∈ sysPerfToDict r, entryOK e) ∧
    ¬ pQuote <:+: dumpsDict (sysPerfToDict r) ∧
    ¬ pFalse <:+: dumpsDict (sysPerfToDict r) ∧
    ¬ pTrue <:+: dumpsDict (sysPerfToDict r) := by
  obtain ⟨hn, ht, hc, hm, hd⟩ := hok
  obtain ⟨hnS, hnQ, hnF, hnT⟩ := strOkFacts hn
  obtain ⟨htS, htQ, htF, htT⟩ := strOkFacts ht
  refine ⟨?_, notInfixDumps (by decide) (by unfold sepOK; decide) _ ?_,
    notInfixDumps (by decide) (by unfold sepOK; decide) _ ?_,
    notInfixDumps (by decide) (by unfold sepOK; decide) _ ?_⟩
  all_goals intro e he
  all_goals rw [sysPerfToDict] at he
  all_goals simp only [List.mem_cons, List.not_mem_nil, or_false] at he
  · rcases he with rfl | rfl | rfl | rfl | rfl
    · exact ⟨(keyFacts "name" (by decide)).1, hnS⟩
    · exact ⟨(keyFacts "cpuUtilization" (by decide)).1, hc⟩
    · exact ⟨(keyFacts "memoryUtilization" (by decide)).1, hm⟩
    · exact ⟨(keyFacts "diskUtilization" (by decide)).1, hd⟩
    · exact ⟨(keyFacts "timestamp" (by decide)).1, htS⟩
  · rcases he with rfl | rfl | rfl | rfl | rfl
    · exact ⟨notInfixOfContainsSubFalse (keyFacts "name" (by decide)).2.1, hnQ, hnS⟩
    · exact ⟨notInfixOfContainsSubFalse (keyFacts "cpuUtilization" (by decide)).2.1, numNoPats.1, hc⟩
    · exact ⟨notInfixOfContainsSubFalse (keyFacts "memoryUtilization" (by decide)).2.1, numNoPats.1, hm⟩
    · exact ⟨notInfixOfContainsSubFalse (keyFacts "diskUtilization" (by decide)).2.1, numNoPats.1, hd⟩
    · exact ⟨notInfixOfContainsSubFalse (keyFacts "timestamp" (by decide)).2.1, htQ, htS⟩
  · rcases he with rfl | rfl | rfl | rfl | rfl
    · exact ⟨notInfixOfContainsSubFalse (keyFacts "name" (by decide)).2.2.1, hnF, hnS⟩
    · exact ⟨notInfixOfContainsSubFalse (keyFacts "cpuUtilization" (by decide)).2.2.1, numNoPats.2.1, hc⟩
    · exact ⟨notInfixOfContainsSubFalse (keyFacts "memoryUtilization" (by decide)).2.2.1, numNoPats.2.1, hm⟩
    · exact ⟨notInfixOfContainsSubFalse (keyFacts "diskUtilization" (by decide)).2.2.1, numNoPats.2.1, hd⟩
    · exact ⟨notInfixOfContainsSubFalse (keyFacts "timestamp" (by decide)).2.2.1, htF, htS⟩
  · rcases he with rfl | rfl | rfl | rfl | rfl
    · exact ⟨notInfixOfContainsSubFalse (keyFacts "name" (by decide)).2.2.2, hnT, hnS⟩
    · exact ⟨notInfixOfContainsSubFalse (keyFacts "cpuUtilization" (by decide)).2.2.2, numNoPats.2.2, hc⟩
    · exact ⟨notInfixOfContainsSubFalse (keyFacts "memoryUtilization" (by decide)).2.2.2, numNoPats.2.2, hm⟩
    · exact ⟨notInfixOfContainsSubFalse (keyFacts "diskUtilization" (by decide)).2.2.2, numNoPats.2.2, hd⟩
    · exact ⟨notInfixOfContainsSubFalse (keyFacts "timestamp" (by decide)).2.2.2, htT, htS⟩

theorem sensorFold (r : SensorData) :
    (sensorToDict r).foldl setSensorField sensorDataDefault = r := rfl

theorem actuatorFold (r : ActuatorData) :
    (actuatorToDict r).foldl setActuatorField actuatorDataDefault = r := rfl

theorem sysPerfFold (r : SystemPerformanceData) :
    (sysPerfToDict r).foldl setSysPerfField systemPerformanceDataDefault = r := rfl

theorem sensorRoundTrip (r : SensorData) (hok : sensorDataOk r) :
    jsonToSensorData (some (sensorDataToJson (some r))) = .ok (some r) := by
  obtain ⟨hents, hQ, hF, hT⟩ := sensorJsonFacts r hok
  have hid := applyPyJsonReplacesId hQ hF hT
  have hne : ¬ dumpsDict (sensorToDict r) = [] := by
    intro h
    rw [sensorToDict, dumpsDict] at h
    exact List.noConfusion h
  have hdictne : sensorToDict r ≠ [] := by
    rw [sensorToDict]
    exact fun h => List.noConfusion h
  rw [sensorDataToJson, hid, jsonToSensorData, if_neg hne, hid,
    loadsDumps _ hdictne hents]
  simp only []
  rw [sensorFold]

theorem actuatorRoundTrip (r : ActuatorData) (hok : actuatorDataOk r) :
    jsonToActuatorData (some (actuatorDataToJson (some r))) = .ok (some r) := by
  obtain ⟨hents, hQ, hF, hT⟩ := actuatorJsonFacts r hok
  have hid := applyPyJsonReplacesId hQ hF hT
  have hne : ¬ dumpsDict (actuatorToDict r) = [] := by
    intro h
    rw [actuatorToDict, dumpsDict] at h
    exact List.noConfusion h
  have hdictne : actuatorToDict r ≠ [] := by
    rw [actuatorToDict]
    exact fun h => List.noConfusion h
  rw [actuatorDataToJson, hid, jsonToActuatorData, if_neg hne, hid,
    loadsDumps _ hdictne hents]
  simp only []
  rw [actuatorFold]

theorem sysPerfRoundTrip (r : SystemPerformanceData) (hok : sysPerfDataOk r) :
    jsonToSystemPerformanceData (some (systemPerformanceDataToJson (some r))) = .ok (some r) := by
  obtain ⟨hents, hQ, hF, hT⟩ := sysPerfJsonFacts r hok
  have hid := applyPyJsonReplacesId hQ hF hT
  have hne : ¬ dumpsDict (sysPerfToDict r) = [] := by
    intro h
    rw [sysPerfToDict, dumpsDict] at h
    exact List.noConfusion h
  have hdictne : sysPerfToDict r ≠ [] := by
    rw [sysPerfToDict]
    exact fun h => List.noConfusion h
  rw [systemPerformanceDataToJson, hid, jsonToSystemPerformanceData, if_neg hne, hid,
    loadsDumps _ hdictne hents]
  simp only []
  rw [sysPerfFold]

/-! # Claims -/

theorem dictLookupInsert {α : Type} (k : String) (v : α) (d : List (String × α)) :
    dictLookup k (dictInsert k v d) = some v := by
  induction d with
  | nil => simp [dictInsert, dictLookup]
  | cons e t ih =>
    rw [dictInsert]
    split_ifs with h
    · rw [dictLookup, if_pos h]
    · rw [dictLookup, if_neg h, ih]

/-- C1: for every temperature-typed sensor reading, with local temperature
handling enabled and configured floor below ceiling, `_handleSensorDataAnalysis`
issues exactly one HVAC actuator command — ON with value = ceiling when the
reading's value exceeds the ceiling, ON with value = floor when it is below
the floor, OFF with value 0 otherwise — a pure function of
`(value, floor, ceiling)`, carrying the reading's location ID and the fixed
HVAC actuator name and type; `handleSensorMessage` passes exactly this command
to `handleActuatorCommandMessage`. -/
theorem C1_control_rule (cfg : DDMConfig) (st : DDMState) (d : SensorData)
    (hen : cfg.handleTempChangeOnDevice = true)
    (hty : d.typeID = ConfigConst.TEMP_SENSOR_TYPE)
    (_hfc : cfg.triggerHvacTempFloor < cfg.triggerHvacTempCeiling)
    (hst : st.cfg = cfg) :
    handleSensorDataAnalysis cfg d = some
      { name := ConfigConst.HVAC_ACTUATOR_NAME,
        typeID := ConfigConst.HVAC_ACTUATOR_TYPE,
        locationID := d.locationID,
        command := if d.value > cfg.triggerHvacTempCeiling then ConfigConst.COMMAND_ON
          else if d.value < cfg.triggerHvacTempFloor then ConfigConst.COMMAND_ON
          else ConfigConst.COMMAND_OFF,
        value := if d.value > cfg.triggerHvacTempCeiling then cfg.triggerHvacTempCeiling
          else if d.value < cfg.triggerHvacTempFloor then cfg.triggerHvacTempFloor
          else 0,
        isResponse := false,
        statusCode := 0 } ∧
    (handleSensorMessage st (some d)).2.2.actuatorCmds =
      [{ name := ConfigConst.HVAC_ACTUATOR_NAME,
         typeID := ConfigConst.HVAC_ACTUATOR_TYPE,
         locationID := d.locationID,
         command := if d.value > cfg.triggerHvacTempCeiling then ConfigConst.COMMAND_ON
           else if d.value < cfg.triggerHvacTempFloor then ConfigConst.COMMAND_ON
           else ConfigConst.COMMAND_OFF,
         value := if d.value > cfg.triggerHvacTempCeiling then cfg.triggerHvacTempCeiling
           else if d.value < cfg.triggerHvacTempFloor then cfg.triggerHvacTempFloor
           else 0,
         isResponse := false,
         statusCode := 0 }] := by
  have had : handleSensorDataAnalysis cfg d = some
      { name := ConfigConst.HVAC_ACTUATOR_NAME,
        typeID := ConfigConst.HVAC_ACTUATOR_TYPE,
        locationID := d.locationID,
        command := if d.value > cfg.triggerHvacTempCeiling then ConfigConst.COMMAND_ON
          else if d.value < cfg.triggerHvacTempFloor then ConfigConst.COMMAND_ON
          else ConfigConst.COMMAND_OFF,
        value := if d.value > cfg.triggerHvacTempCeiling then cfg.triggerHvacTempCeiling
          else if d.value < cfg.triggerHvacTempFloor then cfg.triggerHvacTempFloor
          else 0,
        isResponse := false,
        statusCode := 0 } := by
    rw [handleSensorDataAnalysis, if_pos ⟨hen, hty⟩, hvacAnalysisCommand]
    simp only [actuatorDataDefault]
    split_ifs with h1 h2 <;> rfl
  refine ⟨had, ?_⟩
  rw [handleSensorMessage]
  simp only [hst, had]

/-- C1 witness: the control rule at floor 18, ceiling 20 on a temperature
reading of value 21 issues the ON command with value 20. -/
theorem C1_control_rule_witness :
    ((true = true ∧ (1013 : ℤ) = ConfigConst.TEMP_SENSOR_TYPE ∧ (18 : ℚ) < 20) ∧
      handleSensorDataAnalysis ⟨true, 18, 20, false⟩
        ⟨"TempSensor", 1013, "constraineddevice001", 21, ""⟩ = some
        { name := ConfigConst.HVAC_ACTUATOR_NAME,
          typeID := ConfigConst.HVAC_ACTUATOR_TYPE,
          locationID := "constraineddevice001",
          command := ConfigConst.COMMAND_ON,
          value := 20,
          isResponse := false,
          statusCode := 0 }) := by
  refine ⟨⟨rfl, by decide, by norm_num⟩, ?_⟩
  have h := (C1_control_rule ⟨true, 18, 20, false⟩ ⟨⟨true, 18, 20, false⟩, [], [], []⟩
    ⟨"TempSensor", 1013, "constraineddevice001", 21, ""⟩ rfl (by decide) (by norm_num) rfl).1
  rw [h]
  norm_num

/-- C2 (amended): for every record of the three kinds whose string fields
consist of printable ASCII characters other than double quote, backslash and
single quote and contain no occurrence of the substrings `True` or `False`,
and whose numeric fields are finite decimals, decoding the JSON text produced
by encoding the record yields a record field-wise equal to it. -/
theorem C2_roundtrip_amended (rs : SensorData) (ra : ActuatorData)
    (rp : SystemPerformanceData) (hs : sensorDataOk rs) (ha : actuatorDataOk ra)
    (hp : sysPerfDataOk rp) :
    jsonToSensorData (some (sensorDataToJson (some rs))) = .ok (some rs) ∧
    jsonToActuatorData (some (actuatorDataToJson (some ra))) = .ok (some ra) ∧
    jsonToSystemPerformanceData (some (systemPerformanceDataToJson (some rp))) =
      .ok (some rp) :=
  ⟨sensorRoundTrip rs hs, actuatorRoundTrip ra ha, sysPerfRoundTrip rp hp⟩

/-- C2 counterexample: a `SensorData` record named `"True"` does not survive
the round trip — the codec's text-level replacement of `True` by `true`
corrupts the name inside the JSON string value, so the decoded record is named
`"true"`. -/
theorem C2_roundtrip_counterexample :
    jsonToSensorData (some (sensorDataToJson
      (some (⟨"True", 0, "", 0, ""⟩ : SensorData)))) ≠
    .ok (some (⟨"True", 0, "", 0, ""⟩ : SensorData)) := by
  decide

/-- C2 witness: the amended round trip at concrete records of the three
kinds. -/
theorem C2_roundtrip_witness :
    (sensorDataOk ⟨"TempSensor", 1013, "cdevice001", (mkRat 43 2), "2025-01-01"⟩ ∧
     actuatorDataOk ⟨"HvacActuator", 1001, "cdevice001", 1, (20 : ℚ), false, 0⟩ ∧
     sysPerfDataOk ⟨"SysPerfMsg", (mkRat 25 2), (37 : ℚ), (mkRat 201 4), "2025-01-01"⟩) ∧
    (jsonToSensorData (some (sensorDataToJson
        (some (⟨"TempSensor", 1013, "cdevice001", (mkRat 43 2), "2025-01-01"⟩ : SensorData)))) =
      .ok (some ⟨"TempSensor", 1013, "cdevice001", (mkRat 43 2), "2025-01-01"⟩) ∧
     jsonToActuatorData (some (actuatorDataToJson
        (some (⟨"HvacActuator", 1001, "cdevice001", 1, (20 : ℚ), false, 0⟩ : ActuatorData)))) =
      .ok (some ⟨"HvacActuator", 1001, "cdevice001", 1, (20 : ℚ), false, 0⟩) ∧
     jsonToSystemPerformanceData (some (systemPerformanceDataToJson
        (some (⟨"SysPerfMsg", (mkRat 25 2), (37 : ℚ), (mkRat 201 4), "2025-01-01"⟩ :
          SystemPerformanceData)))) =
      .ok (some ⟨"SysPerfMsg", (mkRat 25 2), (37 : ℚ), (mkRat 201 4), "2025-01-01"⟩)) :=
  ⟨⟨by unfold sensorDataOk decOk; decide, by unfold actuatorDataOk decOk; decide,
    by unfold sysPerfDataOk decOk; decide⟩,
    C2_roundtrip_amended _ _ _ (by unfold sensorDataOk decOk; decide)
      (by unfold actuatorDataOk decOk; decide) (by unfold sysPerfDataOk decOk; decide)⟩

/-- C3 counterexample: malformed non-empty input makes every decode operation
raise the parse error (modelled as `.error`) — none of them returns `None`. -/
theorem C3_decode_counterexample :
    jsonToActuatorData (some ("not json".data)) = .error .jsonDecodeError ∧
    jsonToSensorData (some ("not json".data)) = .error .jsonDecodeError ∧
    jsonToSystemPerformanceData (some ("not json".data)) = .error .jsonDecodeError := by
  refine ⟨?_, ?_, ?_⟩ <;> decide

/-- C3 (amended): the decode operations return `None` only for `None`/empty
input; for every non-empty input whose quote/boolean-normalized text fails to
parse as JSON, they raise the parse exception to the caller (the Coordinator
catches it in `_handleIncomingDataAnalysis`). -/
theorem C3_decode_amended (s : List Char) (hne : s ≠ [])
    (hbad : loads (applyPyJsonReplaces s) = none) :
    jsonToActuatorData (some s) = .error .jsonDecodeError ∧
    jsonToSensorData (some s) = .error .jsonDecodeError ∧
    jsonToSystemPerformanceData (some s) = .error .jsonDecodeError ∧
    jsonToActuatorData none = .ok none ∧
    jsonToSensorData none = .ok none ∧
    jsonToSystemPerformanceData none = .ok none ∧
    jsonToActuatorData (some []) = .ok none ∧
    jsonToSensorData (some []) = .ok none ∧
    jsonToSystemPerformanceData (some []) = .ok none := by
  refine ⟨?_, ?_, ?_, rfl, rfl, rfl, by decide, by decide, by decide⟩
  · rw [jsonToActuatorData, if_neg hne, hbad]
  · rw [jsonToSensorData, if_neg hne, hbad]
  · rw [jsonToSystemPerformanceData, if_neg hne, hbad]

/-- C3 witness: the amended statement at the concrete input `"not json"`. -/
theorem C3_decode_witness :
    (("not json".data ≠ [] ∧ loads (applyPyJsonReplaces ("not json".data)) = none) ∧
      (jsonToActuatorData (some ("not json".data)) = .error .jsonDecodeError ∧
       jsonToSensorData (some ("not json".data)) = .error .jsonDecodeError ∧
       jsonToSystemPerformanceData (some ("not json".data)) = .error .jsonDecodeError ∧
       jsonToActuatorData none = .ok none ∧
       jsonToSensorData none = .ok none ∧
       jsonToSystemPerformanceData none = .ok none ∧
       jsonToActuatorData (some []) = .ok none ∧
       jsonToSensorData (some []) = .ok none ∧
       jsonToSystemPerformanceData (some []) = .ok none)) :=
  ⟨⟨by decide, by decide⟩, C3_decode_amended ("not json".data) (by decide) (by decide)⟩

/-- C4: `publishMessage` returns `False` — and lets no exception escape — when
the connector holds no active broker connection, and likewise for every call
with a missing resource or a missing/empty payload. -/
theorem C4_publish_guards (connected : Bool) (resource : Option ResourceNameEnum)
    (msg : Option String)
    (h : connected = false ∨ resource = none ∨ msg = none ∨ msg = some "") :
    publishMessage connected resource msg = .ok false := by
  rcases h with rfl | rfl | rfl | rfl
  · cases resource with
    | none => rfl
    | some r =>
      rw [publishMessage]
      split_ifs with hmsg
      · rfl
      · rfl
  · rfl
  · cases resource with
    | none => rfl
    | some r => rw [publishMessage, if_pos (Or.inl rfl)]
  · cases resource with
    | none => rfl
    | some r => rw [publishMessage, if_pos (Or.inr rfl)]

/-- C4 witness: publishing without an active connection returns `False`
without raising. -/
theorem C4_publish_guards_witness :
    ((false = false ∨ (some ResourceNameEnum.CDA_SENSOR_MSG_RESOURCE : Option ResourceNameEnum)
        = none ∨ (some "x" : Option String) = none ∨ (some "x" : Option String) = some "") ∧
      publishMessage false (some .CDA_SENSOR_MSG_RESOURCE) (some "x") = .ok false) :=
  ⟨Or.inl rfl, C4_publish_guards false (some .CDA_SENSOR_MSG_RESOURCE) (some "x") (Or.inl rfl)⟩

/-- C5: `sendActuatorCommand` returns `None` and invokes no actuator backend
whenever the command is null, is flagged as a response, or carries a location
ID different from the device's configured location. -/
theorem C5_dispatch_rejects (mgr : ActuatorAdapterManager)
    (updH updV updL : ActuatorData → Option ActuatorData) (data : Option ActuatorData)
    (h : data = none ∨ (∃ d, data = some d ∧ d.isResponse = true) ∨
      (∃ d, data = some d ∧ d.locationID ≠ mgr.locationID)) :
    sendActuatorCommand mgr updH updV updL data = (none, []) := by
  rcases h with rfl | ⟨d, rfl, hresp⟩ | ⟨d, rfl, hloc⟩
  · rfl
  · rw [sendActuatorCommand, if_pos hresp]
  · by_cases hr : d.isResponse = true
    · rw [sendActuatorCommand, if_pos hr]
    · rw [sendActuatorCommand, if_neg hr, if_neg hloc]

/-- C5 witness: a response-flagged command and a location-mismatched command
are both rejected with no backend invocation. -/
theorem C5_dispatch_rejects_witness :
    ((∃ d, (some (⟨"HvacActuator", 1001, "elsewhere", 1, 20, false, 0⟩ : ActuatorData) :
        Option ActuatorData) = some d ∧
      d.locationID ≠ (⟨"cdevice001", true, true, false⟩ : ActuatorAdapterManager).locationID) ∧
      sendActuatorCommand ⟨"cdevice001", true, true, false⟩ (fun _ => none) (fun _ => none)
        (fun _ => none)
        (some ⟨"HvacActuator", 1001, "elsewhere", 1, 20, false, 0⟩) = (none, [])) := by
  refine ⟨⟨_, rfl, by decide⟩, ?_⟩
  exact C5_dispatch_rejects ⟨"cdevice001", true, true, false⟩ _ _ _ _
    (Or.inr (Or.inr ⟨_, rfl, by decide⟩))

/-- C6: ingesting a null sensor reading returns `False` and leaves the
coordinator's state — all three latest-value caches included — unchanged, with
no control-rule evaluation and no upstream transmission. -/
theorem C6_null_sensor_ingest (st : DDMState) :
    handleSensorMessage st none = (false, st, ⟨[], []⟩) := rfl

/-- C7: after ingesting two sensor readings with the same non-empty name in
sequence, the sensor cache lookup for that name returns the second reading. -/
theorem C7_cache_overwrite (st : DDMState) (r1 r2 : SensorData) (X : String)
    (hX : X ≠ "") (_h1 : r1.name = X) (h2 : r2.name = X) :
    getLatestSensorDataFromCache
      (handleSensorMessage (handleSensorMessage st (some r1)).2.1 (some r2)).2.1 X =
      some r2 := by
  have hlem : ∀ (s : DDMState) (r : SensorData), r.name = X →
      (handleSensorMessage s (some r)).2.1.latestSensorDataCache =
        dictInsert X r s.latestSensorDataCache := by
    intro s r hr
    rw [handleSensorMessage]
    simp only [hr]
    rw [if_pos hX]
  rw [getLatestSensorDataFromCache, if_pos hX, hlem _ r2 h2, dictLookupInsert]

/-- C7 witness: two readings named `"X"` ingested into an empty coordinator
leave the second one in the cache. -/
theorem C7_cache_overwrite_witness :
    (("X" : String) ≠ "" ∧
      (⟨"X", 1013, "loc", 1, "t1"⟩ : SensorData).name = "X" ∧
      (⟨"X", 1013, "loc", 2, "t2"⟩ : SensorData).name = "X" ∧
      getLatestSensorDataFromCache
        (handleSensorMessage
          (handleSensorMessage ⟨⟨false, 18, 20, false⟩, [], [], []⟩
            (some ⟨"X", 1013, "loc", 1, "t1"⟩)).2.1
          (some ⟨"X", 1013, "loc", 2, "t2"⟩)).2.1 "X" =
        some ⟨"X", 1013, "loc", 2, "t2"⟩) :=
  ⟨by decide, rfl, rfl,
    C7_cache_overwrite ⟨⟨false, 18, 20, false⟩, [], [], []⟩ _ _ "X" (by decide) rfl rfl⟩

/-- C8: an inbound message whose topic does not resolve to a resource name is
dropped by `onMessage` — the registered listener's `handleIncomingMessage` is
never invoked. -/
theorem C8_unmapped_topic_dropped (listenerSet : Bool) (topic : String) (payload : String)
    (h : getResourceNameByValue topic = none) :
    onMessage listenerSet topic payload = [] := by
  cases listenerSet with
  | false => rfl
  | true =>
    rw [onMessage, if_pos rfl, h]

/-- C8 witness: a message on an unknown topic string is dropped even with a
listener registered. -/
theorem C8_unmapped_topic_dropped_witness :
    (getResourceNameByValue "not/a/known/topic" = none ∧
      onMessage true "not/a/known/topic" "payload" = []) :=
  ⟨by decide, C8_unmapped_topic_dropped true "not/a/known/topic" "payload" (by decide)⟩

/-- C9: the shell `SystemPerformanceManager.handleTelemetry` polls only the
CPU and memory utilization tasks (no disk task exists), builds no performance
record and forwards nothing to any listener, and `setDataMessageListener`
discards its argument and returns `None`; the spec's poll-and-forward pipeline
is therefore not implemented by this code. -/
theorem C9_sysperf_shell (c m : ℚ) (st : SystemPerformanceManagerState) (l : Option Unit) :
    (spmHandleTelemetry c m).listenerMessages = [] ∧
    (spmHandleTelemetry c m).polled = [SysUtilTaskKind.cpu, SysUtilTaskKind.mem] ∧
    SysUtilTaskKind.disk ∉ (spmHandleTelemetry c m).polled ∧
    spmSetDataMessageListener st l = (st, none) :=
  ⟨rfl, rfl,
    (by decide : SysUtilTaskKind.disk ∉ [SysUtilTaskKind.cpu, SysUtilTaskKind.mem]), rfl⟩

/-- C10: a non-null record with an empty name is still accepted (`True`), the
upstream transmission is still attempted, and nothing is inserted into the
corresponding latest-value cache — for all three coordinator ingest
operations. -/
theorem C10_unnamed_records (st : DDMState) (ds : SensorData) (da : ActuatorData)
    (dp : SystemPerformanceData) (hs : ds.name = "") (ha : da.name = "")
    (hp : dp.name = "") :
    (handleSensorMessage st (some ds)).1 = true ∧
    (handleSensorMessage st (some ds)).2.1 = st ∧
    (handleSensorMessage st (some ds)).2.2.upstream =
      [(.CDA_SENSOR_MSG_RESOURCE, sensorDataToJson (some ds))] ∧
    (handleActuatorCommandResponse st (some da)).1 = true ∧
    (handleActuatorCommandResponse st (some da)).2.1 = st ∧
    (handleActuatorCommandResponse st (some da)).2.2.upstream =
      [(.CDA_ACTUATOR_RESPONSE_MSG_RESOURCE, actuatorDataToJson (some da))] ∧
    (handleSystemPerformanceMessage st (some dp)).1 = true ∧
    (handleSystemPerformanceMessage st (some dp)).2.1 = st ∧
    (handleSystemPerformanceMessage st (some dp)).2.2.upstream =
      [(.CDA_SYSTEM_PERF_MSG_RESOURCE, systemPerformanceDataToJson (some dp))] := by
  refine ⟨rfl, ?_, rfl, rfl, ?_, rfl, rfl, ?_, rfl⟩
  · rw [handleSensorMessage]
    simp only [hs]
    rw [if_neg (by simp)]
  · rw [handleActuatorCommandResponse]
    simp only [ha]
    rw [if_neg (by simp)]
  · rw [handleSystemPerformanceMessage]
    simp only [hp]
    rw [if_neg (by simp)]

/-- C10 witness: empty-named records of the three kinds at a concrete
coordinator state. -/
theorem C10_unnamed_records_witness :
    (((⟨"", 1013, "loc", 1, "t"⟩ : SensorData).name = "" ∧
      (⟨"", 1001, "loc", 1, 0, false, 0⟩ : ActuatorData).name = "" ∧
      (⟨"", 1, 2, 3, "t"⟩ : SystemPerformanceData).name = "") ∧
      ((handleSensorMessage ⟨⟨false, 18, 20, false⟩, [], [], []⟩
          (some ⟨"", 1013, "loc", 1, "t"⟩)).2.1 = ⟨⟨false, 18, 20, false⟩, [], [], []⟩ ∧
        (handleActuatorCommandResponse ⟨⟨false, 18, 20, false⟩, [], [], []⟩
          (some ⟨"", 1001, "loc", 1, 0, false, 0⟩)).1 = true)) :=
  ⟨⟨rfl, rfl, rfl⟩,
    ⟨(C10_unnamed_records ⟨⟨false, 18, 20, false⟩, [], [], []⟩ ⟨"", 1013, "loc", 1, "t"⟩
        ⟨"", 1001, "loc", 1, 0, false, 0⟩ ⟨"", 1, 2, 3, "t"⟩ rfl rfl rfl).2.1,
      (C10_unnamed_records ⟨⟨false, 18, 20, false⟩, [], [], []⟩ ⟨"", 1013, "loc", 1, "t"⟩
        ⟨"", 1001, "loc", 1, 0, false, 0⟩ ⟨"", 1, 2, 3, "t"⟩ rfl rfl rfl).2.2.2.1⟩⟩
